import Mathlib

set_option autoImplicit false

/-!
Verification of the identity-reconciliation engine of the bitespeed-assign
repository (`IdentityReconciliationService` and its SQLite `Database` layer).

The TypeScript source is shallowly embedded as pure Lean functions:

* a `Contact` record mirrors the `Contact` interface (optional fields become
  `Option`; SQLite timestamps become `Nat`, monotone with real time);
* the SQLite store becomes `ContactStore`: the list of rows in insertion
  (rowid/AUTOINCREMENT) order together with the next id to assign;
* every `Database` method becomes a pure function on `ContactStore`; methods
  returning promises that can reject become `Except String`;
* `ORDER BY createdAt ASC` and the JavaScript in-place
  `sort((a, b) => a.createdAt.getTime() - b.createdAt.getTime())` are both
  modelled by the stable insertion sort `sortByCreatedAt` (ECMAScript sorts
  are required to be stable, and the query result order for ties is the
  storage-supplied insertion order);
* `identify` threads the store explicitly and returns the store as it is at
  the moment of a thrown exception, so failed requests keep the writes that
  happened before the failure, exactly as the real service does;
* the external validator rejects empty-string fields, so request and stored
  values are `Option String` with `none` for absent/NULL; the JavaScript
  truthiness tests (`if (email)`) coincide with `Option.isSome` under this
  assumption.
-/

inductive LinkPrecedence where
  | primary
  | secondary
deriving DecidableEq, Repr

structure Contact where
  id : Nat
  phoneNumber : Option String := none
  email : Option String := none
  linkedId : Option Nat := none
  linkPrecedence : LinkPrecedence
  createdAt : Nat
  updatedAt : Nat
  deletedAt : Option Nat := none
deriving DecidableEq, Repr

structure CreateContactData where
  phoneNumber : Option String := none
  email : Option String := none
  linkedId : Option Nat := none
  linkPrecedence : LinkPrecedence
deriving DecidableEq, Repr

structure IdentifyRequest where
  email : Option String := none
  phoneNumber : Option String := none
deriving DecidableEq, Repr

structure ContactResponse where
  primaryContactId : Nat
  emails : List String
  phoneNumbers : List String
  secondaryContactIds : List Nat
deriving DecidableEq, Repr

/-- The SQLite table `contacts`: rows in insertion (rowid) order plus the next
`AUTOINCREMENT` id (ids start at 1). -/
structure ContactStore where
  contacts : List Contact := []
  nextId : Nat := 1
deriving DecidableEq, Repr

def ContactStore.empty : ContactStore := {}

/-- Stable insertion step for sorting by `createdAt`: `c` goes in front of the
first element whose `createdAt` is not smaller, so equal timestamps keep
their relative order. -/
def insertByCreatedAt (c : Contact) : List Contact → List Contact
  | [] => [c]
  | d :: ds => if d.createdAt < c.createdAt then d :: insertByCreatedAt c ds else c :: d :: ds

/-- Stable sort by ascending `createdAt`, modelling both the SQL
`ORDER BY createdAt ASC` and the stable JavaScript array sort used by
`mergePrimaryContacts`. -/
def sortByCreatedAt : List Contact → List Contact
  | [] => []
  | c :: cs => insertByCreatedAt c (sortByCreatedAt cs)

/-- `Database.createContact`: INSERT with fresh id and current timestamps,
then return the created row. -/
def createContact (contactData : CreateContactData) (now : Nat) (s : ContactStore) :
    Contact × ContactStore :=
  let c : Contact :=
    { id := s.nextId
      phoneNumber := contactData.phoneNumber
      email := contactData.email
      linkedId := contactData.linkedId
      linkPrecedence := contactData.linkPrecedence
      createdAt := now
      updatedAt := now
      deletedAt := none }
  (c, { contacts := s.contacts ++ [c], nextId := s.nextId + 1 })

/-- The WHERE clause of `findContactsByEmailOrPhone`: `email = ?` and/or
`phoneNumber = ?`, only for the given sides (SQL `NULL = value` never
matches, which is `none == some value = false` here). -/
def matchesEmailOrPhone (email phoneNumber : Option String) (c : Contact) : Bool :=
  (match email with
    | some e => c.email == some e
    | none => false) ||
  (match phoneNumber with
    | some p => c.phoneNumber == some p
    | none => false)

/-- `Database.findContactsByEmailOrPhone`: when both inputs are absent the
method builds the query `... WHERE deletedAt IS NULL AND () ...`, which
SQLite rejects as a syntax error, so the promise rejects; otherwise all
non-deleted matching rows are returned ordered by `createdAt` ascending. -/
def findContactsByEmailOrPhone (email phoneNumber : Option String) (s : ContactStore) :
    Except String (List Contact) :=
  if email.isNone && phoneNumber.isNone then
    Except.error "SQLITE_ERROR: malformed query"
  else
    Except.ok (sortByCreatedAt (s.contacts.filter
      (fun c => c.deletedAt.isNone && matchesEmailOrPhone email phoneNumber c)))

/-- `Database.findAllLinkedContacts`: the cluster of a primary id, i.e. all
non-deleted rows with that id or linked to it, ordered by `createdAt`. -/
def findAllLinkedContacts (primaryContactId : Nat) (s : ContactStore) : List Contact :=
  sortByCreatedAt (s.contacts.filter
    (fun c => (c.id == primaryContactId || c.linkedId == some primaryContactId) &&
      c.deletedAt.isNone))

/-- `Database.updateContactToSecondary`: UPDATE SET linkedId, linkPrecedence,
updatedAt WHERE id = contactId. -/
def updateContactToSecondary (contactId primaryContactId : Nat) (now : Nat)
    (s : ContactStore) : ContactStore :=
  { s with contacts := s.contacts.map (fun c =>
      if c.id == contactId then
        { c with linkedId := some primaryContactId,
                 linkPrecedence := LinkPrecedence.secondary, updatedAt := now }
      else c) }

/-- `Database.updateLinkedContactsPrimaryId`: UPDATE SET linkedId, updatedAt
WHERE linkedId = oldPrimaryId. -/
def updateLinkedContactsPrimaryId (oldPrimaryId newPrimaryId : Nat) (now : Nat)
    (s : ContactStore) : ContactStore :=
  { s with contacts := s.contacts.map (fun c =>
      if c.linkedId == some oldPrimaryId then
        { c with linkedId := some newPrimaryId, updatedAt := now }
      else c) }

/-- `IdentityReconciliationService.findPrimaryContacts`, one loop iteration:
a primary is pushed directly; a secondary's `linkedId` is dereferenced
against the matched set itself (`contacts.find(...)`), not the store. The
accumulator carries the pushed contacts and the `primaryIds` set. -/
def findPrimaryContactsStep (contacts : List Contact) (acc : List Contact × List Nat)
    (c : Contact) : List Contact × List Nat :=
  if c.linkPrecedence == LinkPrecedence.primary then
    (acc.1 ++ [c], acc.2 ++ [c.id])
  else
    match c.linkedId with
    | some lid =>
      if acc.2.contains lid then acc
      else
        match contacts.find? (fun d => d.id == lid) with
        | some p => (acc.1 ++ [p], acc.2 ++ [p.id])
        | none => acc
    | none => acc

def findPrimaryContacts (contacts : List Contact) : List Contact :=
  (contacts.foldl (findPrimaryContactsStep contacts) ([], [])).1

/-- `IdentityReconciliationService.needsSecondaryContact`: compares the
request only against the primary's own email/phone. -/
def needsSecondaryContact (primaryContact : Contact) (email phoneNumber : Option String) :
    Bool :=
  let hasEmail := email.isNone || primaryContact.email == email
  let hasPhone := phoneNumber.isNone || primaryContact.phoneNumber == phoneNumber
  if hasEmail && hasPhone then
    false
  else
    let hasNewEmail := email.isSome && primaryContact.email != email
    let hasNewPhone := phoneNumber.isSome && primaryContact.phoneNumber != phoneNumber
    hasNewEmail || hasNewPhone

/-- `IdentityReconciliationService.createSecondaryContact`: the new row
carries the full request payload; `if (primaryContactId)` keeps the JS
truthiness test (id 0 would be dropped; AUTOINCREMENT ids start at 1). -/
def createSecondaryContact (email phoneNumber : Option String)
    (primaryContactId : Option Nat) (now : Nat) (s : ContactStore) :
    Contact × ContactStore :=
  createContact
    { email := email
      phoneNumber := phoneNumber
      linkedId := match primaryContactId with
        | some pid => if pid == 0 then none else some pid
        | none => none
      linkPrecedence := LinkPrecedence.secondary } now s

/-- `IdentityReconciliationService.hasNewInformation`: the merge path checks
the request against the whole cluster's emails and phones. -/
def hasNewInformation (contacts : List Contact) (email phoneNumber : Option String) : Bool :=
  if email.isNone && phoneNumber.isNone then
    false
  else
    let existingEmails := contacts.filterMap (fun c => c.email)
    let existingPhones := contacts.filterMap (fun c => c.phoneNumber)
    let hasNewEmail := match email with
      | some e => !existingEmails.contains e
      | none => false
    let hasNewPhone := match phoneNumber with
      | some p => !existingPhones.contains p
      | none => false
    hasNewEmail || hasNewPhone

/-- The duplicate-avoiding push in `buildResponseForPrimary`:
`if (value && !list.includes(value)) list.push(value)`. -/
def addUniqueValue (acc : List String) : Option String → List String
  | none => acc
  | some v => if acc.contains v then acc else acc ++ [v]

/-- `IdentityReconciliationService.buildResponseForPrimary`: fetch the
cluster, find the primary (throwing if absent), then build the deduplicated
projection with the primary's own values first and the secondaries scanned
in ascending creation order. -/
def buildResponseForPrimary (primaryContactId : Nat) (s : ContactStore) :
    Except String ContactResponse :=
  let allLinkedContacts := findAllLinkedContacts primaryContactId s
  match allLinkedContacts.find? (fun c => c.linkPrecedence == LinkPrecedence.primary) with
  | none => Except.error "Primary contact not found"
  | some primaryContact =>
    let secondaryContacts :=
      allLinkedContacts.filter (fun c => c.linkPrecedence == LinkPrecedence.secondary)
    let emails0 : List String := match primaryContact.email with
      | some e => [e]
      | none => []
    let phones0 : List String := match primaryContact.phoneNumber with
      | some p => [p]
      | none => []
    Except.ok
      { primaryContactId := primaryContact.id
        emails := secondaryContacts.foldl (fun acc c => addUniqueValue acc c.email) emails0
        phoneNumbers :=
          secondaryContacts.foldl (fun acc c => addUniqueValue acc c.phoneNumber) phones0
        secondaryContactIds := secondaryContacts.map (fun c => c.id) }

/-- `IdentityReconciliationService.createNewPrimaryContact`: create the row
and build the single-contact projection directly from the request, with no
further storage read. -/
def createNewPrimaryContact (email phoneNumber : Option String) (now : Nat)
    (s : ContactStore) : ContactResponse × ContactStore :=
  let result :=
    createContact { email := email, phoneNumber := phoneNumber, linkedId := none,
                    linkPrecedence := LinkPrecedence.primary } now s
  ({ primaryContactId := result.1.id
     emails := match email with
       | some e => [e]
       | none => []
     phoneNumbers := match phoneNumber with
       | some p => [p]
       | none => []
     secondaryContactIds := [] }, result.2)

/-- The body of the merge loop in `mergePrimaryContacts`: for each
formerly-primary contact, convert it to a secondary of the oldest primary
and repoint its former secondaries. -/
def mergeFold (contactsToMerge : List Contact) (oldestPrimaryId now : Nat)
    (s : ContactStore) : ContactStore :=
  contactsToMerge.foldl (fun st c =>
    updateLinkedContactsPrimaryId c.id oldestPrimaryId now
      (updateContactToSecondary c.id oldestPrimaryId now st)) s

/-- `IdentityReconciliationService.mergePrimaryContacts`: sort the primaries
by `createdAt` (stable), keep the oldest, convert the rest to secondaries of
it and repoint their former secondaries, then maybe append one secondary for
genuinely new information, and project. An empty list throws before any
write. -/
def mergePrimaryContacts (primaryContacts : List Contact)
    (email phoneNumber : Option String) (now : Nat) (s : ContactStore) :
    ContactStore × Except String ContactResponse :=
  match sortByCreatedAt primaryContacts with
  | [] => (s, Except.error "No primary contact found to merge")
  | oldestPrimary :: contactsToMerge =>
    let s1 := mergeFold contactsToMerge oldestPrimary.id now s
    let allLinkedContacts := findAllLinkedContacts oldestPrimary.id s1
    let s2 :=
      if hasNewInformation allLinkedContacts email phoneNumber then
        (createSecondaryContact email phoneNumber (some oldestPrimary.id) now s1).2
      else s1
    (s2, buildResponseForPrimary oldestPrimary.id s2)

/-- The decision core of `identify`, after a successful lookup: branch on
whether the match set is empty and on the number of primaries found
(`length === 1` goes to the attach path, anything else to the merge path,
where the empty list throws). -/
def identifyCore (existingContacts : List Contact) (email phoneNumber : Option String)
    (now : Nat) (s : ContactStore) : ContactStore × Except String ContactResponse :=
  if existingContacts.isEmpty then
    ((createNewPrimaryContact email phoneNumber now s).2,
      Except.ok (createNewPrimaryContact email phoneNumber now s).1)
  else
    match findPrimaryContacts existingContacts with
    | [primaryContact] =>
      let s1 :=
        if needsSecondaryContact primaryContact email phoneNumber then
          (createSecondaryContact email phoneNumber (some primaryContact.id) now s).2
        else s
      (s1, buildResponseForPrimary primaryContact.id s1)
    | primaryContacts => mergePrimaryContacts primaryContacts email phoneNumber now s

/-- `IdentityReconciliationService.identify`: lookup, then decide. The store
component of the result is the store at the moment the response (or the
thrown error) is produced. -/
def identify (request : IdentifyRequest) (now : Nat) (s : ContactStore) :
    ContactStore × Except String ContactResponse :=
  match findContactsByEmailOrPhone request.email request.phoneNumber s with
  | Except.error e => (s, Except.error e)
  | Except.ok existingContacts => identifyCore existingContacts request.email request.phoneNumber now s

/-- The fields of a contact that reconciliation never rewrites: identity,
email, phone, creation time and soft-delete marker. -/
def contactCore (c : Contact) : Nat × Option String × Option String × Nat × Option Nat :=
  (c.id, c.email, c.phoneNumber, c.createdAt, c.deletedAt)

/-- The combined effect of the whole merge loop on one stored row, used to
characterise `mergeFold` (see `mergeFold_eq_map`): rows being merged become
secondaries of the oldest primary, rows linked to a merged row are
repointed, all other rows are untouched. -/
def mergeTransform (mergeIds : List Nat) (oldestPrimaryId now : Nat) (c : Contact) :
    Contact :=
  if c.id ∈ mergeIds then
    { c with linkPrecedence := LinkPrecedence.secondary,
             linkedId := some oldestPrimaryId, updatedAt := now }
  else
    match c.linkedId with
    | some lid =>
      if lid ∈ mergeIds then
        { c with linkedId := some oldestPrimaryId, updatedAt := now }
      else c
    | none => c

/-- The request timestamp is at least every stored creation timestamp:
SQLite's `datetime('now')` is wall-clock time and never decreases across
requests. -/
def MonotoneClock (now : Nat) (s : ContactStore) : Prop :=
  ∀ c ∈ s.contacts, c.createdAt ≤ now

/-- The store invariant maintained by every successful `identify` request
(proved below): fresh increasing ids bounded by `nextId`, creation times
nondecreasing in insertion order, no soft-deleted rows, primaries carry no
`linkedId`, every secondary links to a strictly older primary row, and two
distinct primaries never share an email or phone value. -/
structure StoreInv (s : ContactStore) : Prop where
  nextId_pos : 0 < s.nextId
  ids_pos : ∀ c ∈ s.contacts, 0 < c.id
  ids_lt : ∀ c ∈ s.contacts, c.id < s.nextId
  ids_sorted : s.contacts.Pairwise (fun a b => a.id < b.id)
  created_sorted : s.contacts.Pairwise (fun a b => a.createdAt ≤ b.createdAt)
  no_deleted : ∀ c ∈ s.contacts, c.deletedAt = none
  prim_no_link : ∀ c ∈ s.contacts, c.linkPrecedence = LinkPrecedence.primary →
    c.linkedId = none
  sec_has_link : ∀ c ∈ s.contacts, c.linkPrecedence = LinkPrecedence.secondary →
    c.linkedId.isSome
  link_resolves : ∀ c ∈ s.contacts, ∀ lid, c.linkedId = some lid →
    ∃ p, p ∈ s.contacts ∧ p.id = lid ∧ p.linkPrecedence = LinkPrecedence.primary ∧
      p.createdAt ≤ c.createdAt ∧ p.id < c.id
  no_prim_share : ∀ c ∈ s.contacts, ∀ d ∈ s.contacts, c.id ≠ d.id →
    c.linkPrecedence = LinkPrecedence.primary →
    d.linkPrecedence = LinkPrecedence.primary →
    (∀ e, c.email = some e → d.email ≠ some e) ∧
      (∀ ph, c.phoneNumber = some ph → d.phoneNumber ≠ some ph)

/-- The stores reachable from the empty table through successfully completed
`identify` requests, under a nondecreasing wall clock. -/
inductive Reachable : ContactStore → Prop where
  | empty : Reachable ContactStore.empty
  | step {s s' : ContactStore} {req : IdentifyRequest} {now : Nat}
      {resp : ContactResponse} : Reachable s → MonotoneClock now s →
      identify req now s = (s', Except.ok resp) → Reachable s'

/-! ### Concrete stores used by the claim instances below.  Each store is the
exact result of running the indicated `identify` sequence from the empty
store (asserted by the theorems that use them). -/

def exC1c1 : Contact := { id := 1, phoneNumber := some "p1", email := some "a@x.com", linkedId := none, linkPrecedence := LinkPrecedence.primary, createdAt := 1, updatedAt := 1, deletedAt := none }

def exC1c2 : Contact := { id := 2, phoneNumber := some "q1", email := some "a@x.com", linkedId := some 1, linkPrecedence := LinkPrecedence.secondary, createdAt := 2, updatedAt := 2, deletedAt := none }

def exC1s1 : ContactStore := { contacts := [exC1c1], nextId := 2 }

def exC1s2 : ContactStore := { contacts := [exC1c1, exC1c2], nextId := 3 }

def exC2c1 : Contact := { id := 1, phoneNumber := some "p1", email := some "a1", linkedId := none, linkPrecedence := LinkPrecedence.primary, createdAt := 1, updatedAt := 1, deletedAt := none }

def exC2c2 : Contact := { id := 2, phoneNumber := some "q1", email := some "a1", linkedId := some 1, linkPrecedence := LinkPrecedence.secondary, createdAt := 2, updatedAt := 2, deletedAt := none }

def exC2c3 : Contact := { id := 3, phoneNumber := some "r1", email := some "b1", linkedId := none, linkPrecedence := LinkPrecedence.primary, createdAt := 3, updatedAt := 3, deletedAt := none }

def exC2c4 : Contact := { id := 4, phoneNumber := some "q1", email := some "b1", linkedId := some 3, linkPrecedence := LinkPrecedence.secondary, createdAt := 4, updatedAt := 4, deletedAt := none }

def exC2s1 : ContactStore := { contacts := [exC2c1], nextId := 2 }

def exC2s2 : ContactStore := { contacts := [exC2c1, exC2c2], nextId := 3 }

def exC2s3 : ContactStore := { contacts := [exC2c1, exC2c2, exC2c3], nextId := 4 }

def exC2s4 : ContactStore := { contacts := [exC2c1, exC2c2, exC2c3, exC2c4], nextId := 5 }

def exC7c1 : Contact := { id := 1, phoneNumber := some "p", email := some "a", linkedId := none, linkPrecedence := LinkPrecedence.primary, createdAt := 1, updatedAt := 1, deletedAt := none }

def exC7c2 : Contact := { id := 2, phoneNumber := some "q", email := some "a", linkedId := some 1, linkPrecedence := LinkPrecedence.secondary, createdAt := 2, updatedAt := 2, deletedAt := none }

def exC7c3 : Contact := { id := 3, phoneNumber := some "q", email := some "a", linkedId := some 1, linkPrecedence := LinkPrecedence.secondary, createdAt := 3, updatedAt := 3, deletedAt := none }

def exC7store : ContactStore := { contacts := [exC7c1, exC7c2], nextId := 3 }

def exC7after : ContactStore := { contacts := [exC7c1, exC7c2, exC7c3], nextId := 4 }

def exC10A : Contact := { id := 1, phoneNumber := some "p1", email := some "a1", linkedId := none, linkPrecedence := LinkPrecedence.primary, createdAt := 10, updatedAt := 10, deletedAt := none }

def exC10B : Contact := { id := 2, phoneNumber := some "p2", email := some "b1", linkedId := none, linkPrecedence := LinkPrecedence.primary, createdAt := 10, updatedAt := 10, deletedAt := none }

def exC10ASec : Contact := { id := 1, phoneNumber := some "p1", email := some "a1", linkedId := some 2, linkPrecedence := LinkPrecedence.secondary, createdAt := 10, updatedAt := 20, deletedAt := none }

def exC10store : ContactStore := { contacts := [exC10A, exC10B], nextId := 3 }

def exC10merged : ContactStore := { contacts := [exC10ASec, exC10B], nextId := 3 }

def demoC7P : ContactStore := { contacts := [exC7c1], nextId := 2 }

def demoC1 : Contact := { id := 1, phoneNumber := some "111", email := some "a@x.com", linkedId := none, linkPrecedence := LinkPrecedence.primary, createdAt := 1, updatedAt := 1, deletedAt := none }

def demoC2 : Contact := { id := 2, phoneNumber := some "222", email := some "a@x.com", linkedId := some 1, linkPrecedence := LinkPrecedence.secondary, createdAt := 2, updatedAt := 2, deletedAt := none }

def demoStore1 : ContactStore := { contacts := [demoC1], nextId := 2 }

def demoStore : ContactStore := { contacts := [demoC1, demoC2], nextId := 3 }

/-! ### Basic facts about the stable sort -/

theorem insertByCreatedAt_perm (c : Contact) (l : List Contact) :
    (insertByCreatedAt c l).Perm (c :: l) := by
  induction l with
  | nil => exact List.Perm.refl _
  | cons d ds ih =>
    simp only [insertByCreatedAt]
    split
    · exact (ih.cons d).trans (List.Perm.swap c d ds)
    · exact List.Perm.refl _

theorem sortByCreatedAt_perm (l : List Contact) : (sortByCreatedAt l).Perm l := by
  induction l with
  | nil => exact List.Perm.refl _
  | cons c cs ih =>
    exact (insertByCreatedAt_perm c (sortByCreatedAt cs)).trans (ih.cons c)

theorem mem_sortByCreatedAt {a : Contact} {l : List Contact} :
    a ∈ sortByCreatedAt l ↔ a ∈ l :=
  (sortByCreatedAt_perm l).mem_iff

theorem insertByCreatedAt_pairwise {c : Contact} {l : List Contact}
    (hl : l.Pairwise (fun a b => a.createdAt ≤ b.createdAt)) :
    (insertByCreatedAt c l).Pairwise (fun a b => a.createdAt ≤ b.createdAt) := by
  induction l with
  | nil => simp [insertByCreatedAt]
  | cons d ds ih =>
    rcases List.pairwise_cons.mp hl with ⟨hd, hds⟩
    simp only [insertByCreatedAt]
    split
    · rename_i hlt
      refine List.pairwise_cons.mpr ⟨?_, ih hds⟩
      intro x hx
      rcases List.mem_cons.mp ((insertByCreatedAt_perm c ds).mem_iff.mp hx) with rfl | hx
      · exact Nat.le_of_lt hlt
      · exact hd x hx
    · rename_i hnlt
      have hcd : c.createdAt ≤ d.createdAt := Nat.le_of_not_lt hnlt
      refine List.pairwise_cons.mpr ⟨?_, hl⟩
      intro x hx
      rcases List.mem_cons.mp hx with rfl | hx
      · exact hcd
      · exact Nat.le_trans hcd (hd x hx)

theorem sortByCreatedAt_pairwise (l : List Contact) :
    (sortByCreatedAt l).Pairwise (fun a b => a.createdAt ≤ b.createdAt) := by
  induction l with
  | nil => simp [sortByCreatedAt]
  | cons c cs ih => exact insertByCreatedAt_pairwise ih

theorem insertByCreatedAt_eq_cons {c : Contact} {l : List Contact}
    (h : ∀ x ∈ l, c.createdAt ≤ x.createdAt) : insertByCreatedAt c l = c :: l := by
  cases l with
  | nil => rfl
  | cons d ds =>
    simp only [insertByCreatedAt, if_neg (Nat.not_lt.mpr (h d (List.mem_cons_self d ds)))]

theorem sortByCreatedAt_eq_self {l : List Contact}
    (h : l.Pairwise (fun a b => a.createdAt ≤ b.createdAt)) : sortByCreatedAt l = l := by
  induction l with
  | nil => rfl
  | cons c cs ih =>
    rcases List.pairwise_cons.mp h with ⟨hc, hcs⟩
    simp only [sortByCreatedAt, ih hcs]
    exact insertByCreatedAt_eq_cons hc

theorem sortByCreatedAt_head_min {l : List Contact} {o : Contact} {rest : List Contact}
    (h : sortByCreatedAt l = o :: rest) :
    (∃ pre post, l = pre ++ o :: post ∧ ∀ d ∈ pre, o.createdAt < d.createdAt) ∧
      ∀ d ∈ l, o.createdAt ≤ d.createdAt := by
  induction l generalizing o rest with
  | nil => simp [sortByCreatedAt] at h
  | cons c cs ih =>
    simp only [sortByCreatedAt] at h
    rcases hcs : sortByCreatedAt cs with _ | ⟨m, ms⟩
    · have hnil : cs = [] := List.Perm.eq_nil (hcs ▸ sortByCreatedAt_perm cs).symm
      rw [hcs] at h
      simp only [insertByCreatedAt] at h
      rcases h with ⟨rfl, rfl⟩
      subst hnil
      exact ⟨⟨[], [], rfl, by simp⟩, by simp⟩
    · rw [hcs] at h
      rcases ih hcs with ⟨⟨pre, post, hsplit, hpre⟩, hmin⟩
      simp only [insertByCreatedAt] at h
      split at h
      · rename_i hlt
        rcases h with ⟨rfl, rfl⟩
        refine ⟨⟨c :: pre, post, by rw [hsplit]; rfl, ?_⟩, ?_⟩
        · intro d hd
          rcases List.mem_cons.mp hd with rfl | hd
          · exact hlt
          · exact hpre d hd
        · intro d hd
          rcases List.mem_cons.mp hd with rfl | hd
          · exact Nat.le_of_lt hlt
          · exact hmin d hd
      · rename_i hnlt
        rcases h with ⟨rfl, rfl⟩
        refine ⟨⟨[], cs, rfl, by simp⟩, ?_⟩
        intro d hd
        rcases List.mem_cons.mp hd with rfl | hd
        · exact Nat.le_refl _
        · exact Nat.le_trans (Nat.le_of_not_lt hnlt) (hmin d hd)

/-! ### Facts about the deduplicating projection fold -/

theorem foldl_addUniqueValue_spec (vs : List (Option String)) :
    ∀ init : List String, init.Nodup →
      ∃ t, List.foldl addUniqueValue init vs = init ++ t ∧
        t.Sublist (vs.filterMap id) ∧ (init ++ t).Nodup := by
  induction vs with
  | nil => exact fun init h => ⟨[], by simp, by simp, by simpa using h⟩
  | cons v rest ih =>
    intro init hinit
    cases v with
    | none =>
      rcases ih init hinit with ⟨t, h1, h2, h3⟩
      exact ⟨t, by simpa [addUniqueValue] using h1, by simpa using h2, h3⟩
    | some x =>
      rcases hx : init.contains x with _ | _
      · have hxmem : x ∉ init := by simpa using hx
        have hinit' : (init ++ [x]).Nodup := by
          refine List.nodup_append.mpr ⟨hinit, List.nodup_singleton x, ?_⟩
          intro a ha hb
          rcases List.mem_singleton.mp hb with rfl
          exact hxmem ha
        rcases ih (init ++ [x]) hinit' with ⟨t, h1, h2, h3⟩
        refine ⟨x :: t, ?_, ?_, ?_⟩
        · rw [List.foldl_cons]
          have hstep : addUniqueValue init (some x) = init ++ [x] := by
            simp only [addUniqueValue, hx]
            rfl
          rw [hstep, h1, List.append_assoc]
          rfl
        · simpa using h2.cons₂ x
        · rwa [List.append_assoc] at h3
      · have hxmem : x ∈ init := by simpa using hx
        rcases ih init hinit with ⟨t, h1, h2, h3⟩
        refine ⟨t, ?_, by simpa using h2.cons x, h3⟩
        rw [List.foldl_cons]
        have hstep : addUniqueValue init (some x) = init := by
          simp only [addUniqueValue, hx]
          rfl
        rw [hstep]
        exact h1

theorem foldl_addUniqueValue_head (vs : List (Option String)) (init : List String)
    (hinit : init.Nodup) (hne : init ≠ []) :
    (List.foldl addUniqueValue init vs).head? = init.head? := by
  rcases foldl_addUniqueValue_spec vs init hinit with ⟨t, h1, -, -⟩
  rw [h1]
  cases init with
  | nil => exact absurd rfl hne
  | cons a l => rfl

/-! ### find? and filter helpers -/

theorem find?_eq_some_of_unique {p : Contact → Bool} {l : List Contact} {a : Contact}
    (ha : a ∈ l) (hpa : p a = true) (huniq : ∀ x ∈ l, p x = true → x = a) :
    l.find? p = some a := by
  induction l with
  | nil => cases ha
  | cons h t ih =>
    rcases hp : p h with _ | _
    · rw [List.find?_cons_of_neg _ (by simp [hp])]
      rcases List.mem_cons.mp ha with rfl | hat
      · rw [hpa] at hp
        cases hp
      · exact ih hat (fun x hx hpx => huniq x (List.mem_cons_of_mem h hx) hpx)
    · have : h = a := huniq h (List.mem_cons_self h t) hp
      rw [List.find?_cons_of_pos _ hp, this]

theorem filter_eq_singleton_of_unique {p : Contact → Bool} {l : List Contact} {a : Contact}
    (hpair : l.Pairwise (fun x y => x.id ≠ y.id)) (ha : a ∈ l) (hpa : p a = true)
    (huniq : ∀ x ∈ l, p x = true → x = a) : l.filter p = [a] := by
  induction l with
  | nil => cases ha
  | cons h t ih =>
    rcases List.pairwise_cons.mp hpair with ⟨hh, ht⟩
    rcases hp : p h with _ | _
    · rw [List.filter_cons_of_neg (by simp [hp])]
      rcases List.mem_cons.mp ha with rfl | hat
      · rw [hpa] at hp
        cases hp
      · exact ih ht hat (fun x hx hpx => huniq x (List.mem_cons_of_mem h hx) hpx)
    · have hha : h = a := huniq h (List.mem_cons_self h t) hp
      rw [List.filter_cons_of_pos (by simp [hp])]
      have htnil : t.filter p = [] := by
        rw [List.filter_eq_nil_iff]
        intro x hx hpx
        have hxa : x = a := huniq x (List.mem_cons_of_mem h hx) hpx
        exact absurd (congrArg Contact.id (hha.trans hxa.symm)) (hh x hx)
      rw [htnil, hha]

/-! ### The structure of findPrimaryContacts -/

theorem mem_findPrimaryContacts_aux (L : List Contact) :
    ∀ (M : List Contact), (∀ c ∈ M, c ∈ L) →
      ∀ (acc : List Contact × List Nat), (∀ y ∈ acc.1, y ∈ L) →
        ∀ x ∈ (M.foldl (findPrimaryContactsStep L) acc).1, x ∈ L := by
  intro M
  induction M with
  | nil => exact fun _ acc hacc x hx => hacc x hx
  | cons c rest ih =>
    intro hM acc hacc x hx
    rw [List.foldl_cons] at hx
    have hcL : c ∈ L := hM c (List.mem_cons_self c rest)
    have hacc' : ∀ y ∈ (findPrimaryContactsStep L acc c).1, y ∈ L := by
      intro y hy
      simp only [findPrimaryContactsStep] at hy
      split at hy
      · rcases List.mem_append.mp hy with hy | hy
        · exact hacc y hy
        · exact List.mem_singleton.mp hy ▸ hcL
      · split at hy
        · rename_i lid _
          split at hy
          · exact hacc y hy
          · split at hy
            · rename_i p hp
              rcases List.mem_append.mp hy with hy | hy
              · exact hacc y hy
              · exact List.mem_singleton.mp hy ▸ List.mem_of_find?_eq_some hp
            · exact hacc y hy
        · exact hacc y hy
    exact ih (fun d hd => hM d (List.mem_cons_of_mem c hd)) _ hacc' x hx

theorem mem_of_mem_findPrimaryContacts {L : List Contact} {x : Contact}
    (hx : x ∈ findPrimaryContacts L) : x ∈ L :=
  mem_findPrimaryContacts_aux L L (fun _ h => h) ([], []) (by simp) x hx

theorem findPrimaryContacts_eq_filter_aux (L : List Contact)
    (hpair : L.Pairwise (fun a b => a.id < b.id))
    (hlink : ∀ c ∈ L, ∀ lid, c.linkedId = some lid → ∀ d ∈ L, d.id = lid →
      d.linkPrecedence = LinkPrecedence.primary ∧ d.id < c.id) :
    ∀ (rem pre : List Contact), L = pre ++ rem →
      rem.foldl (findPrimaryContactsStep L)
        (pre.filter (fun c => c.linkPrecedence == LinkPrecedence.primary),
          (pre.filter (fun c => c.linkPrecedence == LinkPrecedence.primary)).map
            (fun c => c.id))
      = (L.filter (fun c => c.linkPrecedence == LinkPrecedence.primary),
          (L.filter (fun c => c.linkPrecedence == LinkPrecedence.primary)).map
            (fun c => c.id)) := by
  intro rem
  induction rem with
  | nil =>
    intro pre h
    rw [List.append_nil] at h
    rw [List.foldl_nil, h]
  | cons c rest ih =>
    intro pre h
    rw [List.foldl_cons]
    have hstep : findPrimaryContactsStep L
        (pre.filter (fun c => c.linkPrecedence == LinkPrecedence.primary),
          (pre.filter (fun c => c.linkPrecedence == LinkPrecedence.primary)).map
            (fun c => c.id)) c
        = ((pre ++ [c]).filter (fun c => c.linkPrecedence == LinkPrecedence.primary),
          ((pre ++ [c]).filter (fun c => c.linkPrecedence == LinkPrecedence.primary)).map
            (fun c => c.id)) := by
      rcases hc : c.linkPrecedence == LinkPrecedence.primary with _ | _
      · cases hlid : c.linkedId with
        | none => simp [findPrimaryContactsStep, hc, hlid, List.filter_append]
        | some lid =>
          rcases hmem : ((pre.filter
              (fun c => c.linkPrecedence == LinkPrecedence.primary)).map
                (fun c => c.id)).contains lid with _ | _
          · cases hfind : L.find? (fun d => d.id == lid) with
            | none => simp [findPrimaryContactsStep, hc, hlid, hmem, hfind, List.filter_append]
            | some d =>
              exfalso
              have hdid : d.id = lid := by simpa using List.find?_some hfind
              have hdL : d ∈ L := List.mem_of_find?_eq_some hfind
              have hcL : c ∈ L := by
                rw [h]
                exact List.mem_append_right _ (List.mem_cons_self c rest)
              obtain ⟨hdprim, hdlt⟩ := hlink c hcL lid hlid d hdL hdid
              have hdL' : d ∈ pre ++ c :: rest := h ▸ hdL
              rcases List.mem_append.mp hdL' with hdpre | hdcr
              · have hdf : d ∈ pre.filter
                    (fun c => c.linkPrecedence == LinkPrecedence.primary) :=
                  List.mem_filter.mpr ⟨hdpre, by simp [hdprim]⟩
                have hlidmem : lid ∈ (pre.filter
                    (fun c => c.linkPrecedence == LinkPrecedence.primary)).map
                      (fun c => c.id) :=
                  hdid ▸ List.mem_map_of_mem _ hdf
                have : ((pre.filter
                    (fun c => c.linkPrecedence == LinkPrecedence.primary)).map
                      (fun c => c.id)).contains lid = true := by simpa using hlidmem
                rw [hmem] at this
                cases this
              · rcases List.mem_cons.mp hdcr with rfl | hdrest
                · rw [hdprim] at hc
                  simp at hc
                · have hpair' : (c :: rest).Pairwise (fun a b => a.id < b.id) :=
                    (List.pairwise_append.mp (h ▸ hpair)).2.1
                  have hcd : c.id < d.id := (List.pairwise_cons.mp hpair').1 d hdrest
                  exact absurd hdlt (Nat.lt_asymm hcd)
          · simp only [findPrimaryContactsStep, hc, hlid, List.filter_append]
            rw [if_neg (by simp), if_pos hmem, List.filter_cons_of_neg (by simp [hc]),
              List.filter_nil, List.append_nil]
      · simp [findPrimaryContactsStep, hc, List.filter_append]
    rw [hstep]
    exact ih (pre ++ [c]) (by rw [h, List.append_assoc]; rfl)

theorem findPrimaryContacts_eq_filter {L : List Contact}
    (hpair : L.Pairwise (fun a b => a.id < b.id))
    (hlink : ∀ c ∈ L, ∀ lid, c.linkedId = some lid → ∀ d ∈ L, d.id = lid →
      d.linkPrecedence = LinkPrecedence.primary ∧ d.id < c.id) :
    findPrimaryContacts L = L.filter (fun c => c.linkPrecedence == LinkPrecedence.primary) := by
  have := findPrimaryContacts_eq_filter_aux L hpair hlink L [] rfl
  simp only [List.filter_nil, List.map_nil] at this
  rw [findPrimaryContacts, this]

/-! ### The merge loop -/

theorem mergeTransform_nil (oid now : Nat) (c : Contact) :
    mergeTransform [] oid now c = c := by
  cases hl : c.linkedId <;> simp [mergeTransform, hl]

theorem mergeFold_frame (oid now : Nat) :
    ∀ (xs : List Contact) (s : ContactStore), ∃ g : Contact → Contact,
      (mergeFold xs oid now s).contacts = s.contacts.map g ∧
      (∀ c, contactCore (g c) = contactCore c) ∧
      (mergeFold xs oid now s).nextId = s.nextId := by
  intro xs
  induction xs with
  | nil =>
    intro s
    exact ⟨id, by simp [mergeFold], fun _ => rfl, rfl⟩
  | cons x rest ih =>
    intro s
    rcases ih (updateLinkedContactsPrimaryId x.id oid now
      (updateContactToSecondary x.id oid now s)) with ⟨g, hg, hcore, hnext⟩
    refine ⟨fun c => g
      ((fun c => if c.linkedId == some x.id then
          { c with linkedId := some oid, updatedAt := now } else c)
        ((fun c => if c.id == x.id then
          { c with linkedId := some oid, linkPrecedence := LinkPrecedence.secondary,
                   updatedAt := now } else c) c)), ?_, ?_, ?_⟩
    · show (mergeFold rest oid now (updateLinkedContactsPrimaryId x.id oid now
        (updateContactToSecondary x.id oid now s))).contacts = _
      rw [hg]
      show ((s.contacts.map _).map _).map g = _
      rw [List.map_map, List.map_map]
      rfl
    · intro c
      rw [hcore]
      have h1 : ∀ d : Contact, contactCore
          (if d.linkedId == some x.id then
            { d with linkedId := some oid, updatedAt := now } else d) = contactCore d := by
        intro d
        split <;> rfl
      have h2 : contactCore
          (if c.id == x.id then
            { c with linkedId := some oid, linkPrecedence := LinkPrecedence.secondary,
                     updatedAt := now } else c) = contactCore c := by
        split <;> rfl
      rw [h1, h2]
    · show (mergeFold rest oid now (updateLinkedContactsPrimaryId x.id oid now
        (updateContactToSecondary x.id oid now s))).nextId = s.nextId
      rw [hnext]
      rfl

theorem mergeStep_contacts (xid oid now : Nat) (s : ContactStore) :
    (updateLinkedContactsPrimaryId xid oid now
      (updateContactToSecondary xid oid now s)).contacts
      = s.contacts.map (fun c =>
          if c.id = xid then
            { c with linkedId := some oid, linkPrecedence := LinkPrecedence.secondary,
                     updatedAt := now }
          else if c.linkedId = some xid then
            { c with linkedId := some oid, updatedAt := now }
          else c) := by
  show (s.contacts.map _).map _ = _
  rw [List.map_map]
  apply List.map_congr_left
  intro c _
  by_cases hc : c.id = xid
  · simp [Function.comp, hc]
  · by_cases hl : c.linkedId = some xid
    · simp [Function.comp, hc, hl]
    · simp [Function.comp, hc, hl]

theorem mergeFold_eq_map (oid now : Nat) :
    ∀ (xs : List Contact) (s : ContactStore),
      (∀ x ∈ xs, ∀ c ∈ s.contacts, c.id = x.id → c.linkedId = none) →
      oid ∉ xs.map (fun c => c.id) →
      (xs.map (fun c => c.id)).Nodup →
      (mergeFold xs oid now s).contacts
        = s.contacts.map (mergeTransform (xs.map (fun c => c.id)) oid now) ∧
      (mergeFold xs oid now s).nextId = s.nextId := by
  intro xs
  induction xs with
  | nil =>
    intro s _ _ _
    refine ⟨?_, rfl⟩
    simp only [List.map_nil]
    have hcongr : s.contacts.map (mergeTransform [] oid now) = s.contacts.map id :=
      List.map_congr_left (fun c _ => mergeTransform_nil oid now c)
    rw [hcongr, List.map_id]
    rfl
  | cons x rest ih =>
    intro s h1 h2 h3
    have hmapcons : (x :: rest).map (fun c => c.id) = x.id :: rest.map (fun c => c.id) :=
      rfl
    rw [hmapcons] at h2 h3 ⊢
    have hx_notin : x.id ∉ rest.map (fun c => c.id) := (List.nodup_cons.mp h3).1
    have h3' : (rest.map (fun c => c.id)).Nodup := (List.nodup_cons.mp h3).2
    have h2' : oid ∉ rest.map (fun c => c.id) := fun hm => h2 (List.mem_cons_of_mem _ hm)
    have hoidx : oid ≠ x.id := fun he => h2 (he ▸ List.mem_cons_self _ _)
    have hs1c : (updateLinkedContactsPrimaryId x.id oid now
        (updateContactToSecondary x.id oid now s)).contacts
        = s.contacts.map (fun c =>
            if c.id = x.id then
              { c with linkedId := some oid, linkPrecedence := LinkPrecedence.secondary,
                       updatedAt := now }
            else if c.linkedId = some x.id then
              { c with linkedId := some oid, updatedAt := now }
            else c) := mergeStep_contacts x.id oid now s
    have h1' : ∀ y ∈ rest, ∀ c ∈ (updateLinkedContactsPrimaryId x.id oid now
        (updateContactToSecondary x.id oid now s)).contacts, c.id = y.id →
        c.linkedId = none := by
      intro y hy c hc hcy
      rw [hs1c] at hc
      rcases List.mem_map.mp hc with ⟨c0, hc0, rfl⟩
      have hyx : y.id ≠ x.id := by
        intro he
        exact hx_notin (he ▸ List.mem_map_of_mem _ hy)
      by_cases hcx : c0.id = x.id
      · exfalso
        apply hyx
        rw [← hcy]
        simp [hcx]
      · by_cases hcl : c0.linkedId = some x.id
        · exfalso
          have hc0y : c0.id = y.id := by
            rw [← hcy]
            simp [hcx, hcl]
          have := h1 y (List.mem_cons_of_mem x hy) c0 hc0 hc0y
          rw [this] at hcl
          cases hcl
        · have hc0y : c0.id = y.id := by
            rw [← hcy]
            simp [hcx, hcl]
          have h0 := h1 y (List.mem_cons_of_mem x hy) c0 hc0 hc0y
          simpa [hcx, hcl] using h0
    rcases ih (updateLinkedContactsPrimaryId x.id oid now
      (updateContactToSecondary x.id oid now s)) h1' h2' h3' with ⟨hmap, hnext⟩
    refine ⟨?_, by rw [show mergeFold (x :: rest) oid now s = mergeFold rest oid now
      (updateLinkedContactsPrimaryId x.id oid now
        (updateContactToSecondary x.id oid now s)) from rfl, hnext]; rfl⟩
    rw [show mergeFold (x :: rest) oid now s = mergeFold rest oid now
      (updateLinkedContactsPrimaryId x.id oid now
        (updateContactToSecondary x.id oid now s)) from rfl, hmap, hs1c, List.map_map]
    apply List.map_congr_left
    intro c0 hc0
    show mergeTransform (rest.map (fun c => c.id)) oid now
      (if c0.id = x.id then
        { c0 with linkedId := some oid, linkPrecedence := LinkPrecedence.secondary,
                  updatedAt := now }
      else if c0.linkedId = some x.id then
        { c0 with linkedId := some oid, updatedAt := now }
      else c0) = mergeTransform (x.id :: rest.map (fun c => c.id)) oid now c0
    by_cases hcx : c0.id = x.id
    · have hl0 : c0.linkedId = none := h1 x (List.mem_cons_self x rest) c0 hc0 hcx
      rw [if_pos hcx]
      simp [mergeTransform, hcx, hx_notin, h2']
    · by_cases hcl : c0.linkedId = some x.id
      · have hc0notin : c0.id ∉ rest.map (fun c => c.id) := by
          intro hm
          rcases List.mem_map.mp hm with ⟨y, hy, hyid⟩
          have := h1 y (List.mem_cons_of_mem _ hy) c0 hc0 hyid.symm
          rw [this] at hcl
          cases hcl
        rw [if_neg hcx, if_pos hcl]
        simp [mergeTransform, hcx, hcl, hc0notin, h2']
      · rw [if_neg hcx, if_neg hcl]
        by_cases hin : c0.id ∈ rest.map (fun c => c.id)
        · simp [mergeTransform, hin, List.mem_cons_of_mem, hcx]
        · cases hl : c0.linkedId with
          | none => simp [mergeTransform, hcx, hin, hl]
          | some l =>
            have hlx : l ≠ x.id := fun he => hcl (by rw [hl, he])
            by_cases hlin : l ∈ rest.map (fun c => c.id)
            · simp [mergeTransform, hcx, hin, hl, hlin, hlx]
            · simp [mergeTransform, hcx, hin, hl, hlin, hlx]

/-! ### Store well-formedness helpers -/

theorem eq_of_id_eq_of_pairwise {l : List Contact} (hpair : l.Pairwise (fun a b => a.id < b.id))
    {a b : Contact} (ha : a ∈ l) (hb : b ∈ l) (hid : a.id = b.id) : a = b := by
  induction l with
  | nil => cases ha
  | cons h t ih =>
    rcases List.pairwise_cons.mp hpair with ⟨hh, ht⟩
    rcases List.mem_cons.mp ha with rfl | hat
    · rcases List.mem_cons.mp hb with rfl | hbt
      · rfl
      · exact absurd hid (Nat.ne_of_lt (hh b hbt))
    · rcases List.mem_cons.mp hb with rfl | hbt
      · exact absurd hid.symm (Nat.ne_of_lt (hh a hat))
      · exact ih ht hat hbt

theorem lookup_ok_characterize {s : ContactStore} {email phoneNumber : Option String}
    {L : List Contact} (hinv : StoreInv s)
    (h : findContactsByEmailOrPhone email phoneNumber s = Except.ok L) :
    L = s.contacts.filter
      (fun c => c.deletedAt.isNone && matchesEmailOrPhone email phoneNumber c) := by
  rw [findContactsByEmailOrPhone] at h
  split at h
  · cases h
  · have hsorted : (s.contacts.filter
        (fun c => c.deletedAt.isNone && matchesEmailOrPhone email phoneNumber c)).Pairwise
          (fun a b => a.createdAt ≤ b.createdAt) := hinv.created_sorted.filter _
    rw [sortByCreatedAt_eq_self hsorted] at h
    exact (Except.ok.injEq _ _ ▸ h).symm

theorem matched_sub {s : ContactStore} {q : Contact → Bool} {c : Contact}
    (hc : c ∈ s.contacts.filter q) : c ∈ s.contacts :=
  (List.mem_filter.mp hc).1

theorem matched_findPrimaryContacts {s : ContactStore} (hinv : StoreInv s)
    (q : Contact → Bool) :
    findPrimaryContacts (s.contacts.filter q)
      = (s.contacts.filter q).filter
        (fun c => c.linkPrecedence == LinkPrecedence.primary) := by
  apply findPrimaryContacts_eq_filter
  · exact hinv.ids_sorted.filter _
  · intro c hc lid hlid d hd hdid
    have hcs : c ∈ s.contacts := matched_sub hc
    have hds : d ∈ s.contacts := matched_sub hd
    rcases hinv.link_resolves c hcs lid hlid with ⟨p, hp, hpid, hpprim, -, hplt⟩
    have hdp : d = p := eq_of_id_eq_of_pairwise hinv.ids_sorted hds hp (hdid.trans hpid.symm)
    refine ⟨hdp ▸ hpprim, ?_⟩
    rw [hdp]
    exact hplt

theorem mergeTransform_fields (ids : List Nat) (oid now : Nat) (c : Contact) :
    (mergeTransform ids oid now c).id = c.id ∧
    (mergeTransform ids oid now c).createdAt = c.createdAt ∧
    (mergeTransform ids oid now c).email = c.email ∧
    (mergeTransform ids oid now c).phoneNumber = c.phoneNumber ∧
    (mergeTransform ids oid now c).deletedAt = c.deletedAt := by
  by_cases h : c.id ∈ ids
  · simp [mergeTransform, h]
  · cases hl : c.linkedId with
    | none => simp [mergeTransform, h, hl]
    | some l =>
      by_cases h2 : l ∈ ids <;> simp [mergeTransform, h, hl, h2]

theorem mergeTransform_of_mem {ids : List Nat} {oid now : Nat} {c : Contact}
    (h : c.id ∈ ids) :
    mergeTransform ids oid now c =
      { c with linkPrecedence := LinkPrecedence.secondary, linkedId := some oid,
               updatedAt := now } := by
  simp [mergeTransform, h]

theorem mergeTransform_of_link {ids : List Nat} {oid now : Nat} {c : Contact} {l : Nat}
    (h : c.id ∉ ids) (hl : c.linkedId = some l) (hin : l ∈ ids) :
    mergeTransform ids oid now c = { c with linkedId := some oid, updatedAt := now } := by
  simp [mergeTransform, h, hl, hin]

theorem mergeTransform_untouched {ids : List Nat} {oid now : Nat} {c : Contact}
    (h : c.id ∉ ids) (hnl : ∀ l, c.linkedId = some l → l ∉ ids) :
    mergeTransform ids oid now c = c := by
  cases hl : c.linkedId with
  | none => simp [mergeTransform, h, hl]
  | some l => simp [mergeTransform, h, hl, hnl l hl]

theorem storeInv_empty : StoreInv ContactStore.empty := by
  constructor <;> simp [ContactStore.empty]

theorem storeInv_append_secondary {s : ContactStore} {now : Nat} {p : Contact}
    (hinv : StoreInv s) (hclock : MonotoneClock now s)
    (hp : p ∈ s.contacts) (hpprim : p.linkPrecedence = LinkPrecedence.primary)
    (email phoneNumber : Option String) :
    StoreInv { contacts := s.contacts ++ [{ id := s.nextId, phoneNumber := phoneNumber, email := email, linkedId := some p.id, linkPrecedence := LinkPrecedence.secondary, createdAt := now, updatedAt := now, deletedAt := none }], nextId := s.nextId + 1 } := by
  constructor
  · exact Nat.succ_pos _
  · intro d hd
    rcases List.mem_append.mp hd with hd | hd
    · exact hinv.ids_pos d hd
    · rcases List.mem_singleton.mp hd with rfl
      exact hinv.nextId_pos
  · intro d hd
    rcases List.mem_append.mp hd with hd | hd
    · exact Nat.lt_succ_of_lt (hinv.ids_lt d hd)
    · rcases List.mem_singleton.mp hd with rfl
      exact Nat.lt_succ_self _
  · rw [List.pairwise_append]
    refine ⟨hinv.ids_sorted, List.pairwise_singleton _ _, ?_⟩
    intro a ha b hb
    rcases List.mem_singleton.mp hb with rfl
    exact hinv.ids_lt a ha
  · rw [List.pairwise_append]
    refine ⟨hinv.created_sorted, List.pairwise_singleton _ _, ?_⟩
    intro a ha b hb
    rcases List.mem_singleton.mp hb with rfl
    exact hclock a ha
  · intro d hd
    rcases List.mem_append.mp hd with hd | hd
    · exact hinv.no_deleted d hd
    · rcases List.mem_singleton.mp hd with rfl
      rfl
  · intro d hd hdp
    rcases List.mem_append.mp hd with hd | hd
    · exact hinv.prim_no_link d hd hdp
    · rcases List.mem_singleton.mp hd with rfl
      simp at hdp
  · intro d hd hds
    rcases List.mem_append.mp hd with hd | hd
    · exact hinv.sec_has_link d hd hds
    · rcases List.mem_singleton.mp hd with rfl
      rfl
  · intro d hd lid hlid
    rcases List.mem_append.mp hd with hd | hd
    · rcases hinv.link_resolves d hd lid hlid with ⟨q, hq, hqid, hqprim, hqcr, hqlt⟩
      exact ⟨q, List.mem_append_left _ hq, hqid, hqprim, hqcr, hqlt⟩
    · rcases List.mem_singleton.mp hd with rfl
      have hpl : p.id = lid := Option.some.inj hlid
      exact ⟨p, List.mem_append_left _ hp, hpl, hpprim, hclock p hp, hpl ▸ hinv.ids_lt p hp⟩
  · intro a ha b hb hne hap hbp
    rcases List.mem_append.mp ha with ha | ha
    · rcases List.mem_append.mp hb with hb | hb
      · exact hinv.no_prim_share a ha b hb hne hap hbp
      · rcases List.mem_singleton.mp hb with rfl
        simp at hbp
    · rcases List.mem_singleton.mp ha with rfl
      simp at hap

theorem storeInv_append_primary {s : ContactStore} {now : Nat}
    {email phoneNumber : Option String}
    (hinv : StoreInv s) (hclock : MonotoneClock now s)
    (hnomatch : ∀ c ∈ s.contacts, matchesEmailOrPhone email phoneNumber c = false) :
    StoreInv { contacts := s.contacts ++ [{ id := s.nextId, phoneNumber := phoneNumber, email := email, linkedId := none, linkPrecedence := LinkPrecedence.primary, createdAt := now, updatedAt := now, deletedAt := none }], nextId := s.nextId + 1 } := by
  constructor
  · exact Nat.succ_pos _
  · intro d hd
    rcases List.mem_append.mp hd with hd | hd
    · exact hinv.ids_pos d hd
    · rcases List.mem_singleton.mp hd with rfl
      exact hinv.nextId_pos
  · intro d hd
    rcases List.mem_append.mp hd with hd | hd
    · exact Nat.lt_succ_of_lt (hinv.ids_lt d hd)
    · rcases List.mem_singleton.mp hd with rfl
      exact Nat.lt_succ_self _
  · rw [List.pairwise_append]
    refine ⟨hinv.ids_sorted, List.pairwise_singleton _ _, ?_⟩
    intro a ha b hb
    rcases List.mem_singleton.mp hb with rfl
    exact hinv.ids_lt a ha
  · rw [List.pairwise_append]
    refine ⟨hinv.created_sorted, List.pairwise_singleton _ _, ?_⟩
    intro a ha b hb
    rcases List.mem_singleton.mp hb with rfl
    exact hclock a ha
  · intro d hd
    rcases List.mem_append.mp hd with hd | hd
    · exact hinv.no_deleted d hd
    · rcases List.mem_singleton.mp hd with rfl
      rfl
  · intro d hd _
    rcases List.mem_append.mp hd with hd | hd
    · exact hinv.prim_no_link d hd (by assumption)
    · rcases List.mem_singleton.mp hd with rfl
      rfl
  · intro d hd hds
    rcases List.mem_append.mp hd with hd | hd
    · exact hinv.sec_has_link d hd hds
    · rcases List.mem_singleton.mp hd with rfl
      simp at hds
  · intro d hd lid hlid
    rcases List.mem_append.mp hd with hd | hd
    · rcases hinv.link_resolves d hd lid hlid with ⟨q, hq, hqid, hqprim, hqcr, hqlt⟩
      exact ⟨q, List.mem_append_left _ hq, hqid, hqprim, hqcr, hqlt⟩
    · rcases List.mem_singleton.mp hd with rfl
      cases hlid
  · intro a ha b hb hne hap hbp
    rcases List.mem_append.mp ha with ha | ha
    · rcases List.mem_append.mp hb with hb | hb
      · exact hinv.no_prim_share a ha b hb hne hap hbp
      · rcases List.mem_singleton.mp hb with rfl
        constructor
        · intro e hae hbe
          have hbe' : email = some e := hbe
          have := hnomatch a ha
          rw [hbe'] at this
          simp [matchesEmailOrPhone, hae] at this
        · intro ph hap2 hbp2
          have hbp2' : phoneNumber = some ph := hbp2
          have := hnomatch a ha
          rw [hbp2'] at this
          simp [matchesEmailOrPhone, hap2] at this
    · rcases List.mem_singleton.mp ha with rfl
      rcases List.mem_append.mp hb with hb | hb
      · constructor
        · intro e hae hbe
          have hae' : email = some e := hae
          have := hnomatch b hb
          rw [hae'] at this
          simp [matchesEmailOrPhone, hbe] at this
        · intro ph hap2 hbp2
          have hap2' : phoneNumber = some ph := hap2
          have := hnomatch b hb
          rw [hap2'] at this
          simp [matchesEmailOrPhone, hbp2] at this
      · rcases List.mem_singleton.mp hb with rfl
        exact absurd rfl hne

theorem storeInv_mergeTransform {s : ContactStore} {now : Nat} {O : Contact}
    {mergeIds : List Nat}
    (hinv : StoreInv s)
    (hO : O ∈ s.contacts) (hOprim : O.linkPrecedence = LinkPrecedence.primary)
    (hOnotin : O.id ∉ mergeIds)
    (hsub : ∀ i ∈ mergeIds, ∃ x, x ∈ s.contacts ∧ x.id = i ∧
      x.linkPrecedence = LinkPrecedence.primary ∧ O.createdAt ≤ x.createdAt ∧
      O.id < x.id) :
    StoreInv { contacts := s.contacts.map (mergeTransform mergeIds O.id now),
               nextId := s.nextId } := by
  have hOlink : O.linkedId = none := hinv.prim_no_link O hO hOprim
  have hmtO : mergeTransform mergeIds O.id now O = O :=
    mergeTransform_untouched hOnotin (fun l hl => by rw [hOlink] at hl; cases hl)
  have hOmem : O ∈ s.contacts.map (mergeTransform mergeIds O.id now) := by
    have := List.mem_map_of_mem (mergeTransform mergeIds O.id now) hO
    rwa [hmtO] at this
  have hprim_untouched : ∀ c0 ∈ s.contacts,
      (mergeTransform mergeIds O.id now c0).linkPrecedence = LinkPrecedence.primary →
      mergeTransform mergeIds O.id now c0 = c0 ∧
        c0.linkPrecedence = LinkPrecedence.primary := by
    intro c0 hc0 hprim
    by_cases h1 : c0.id ∈ mergeIds
    · rw [mergeTransform_of_mem h1] at hprim
      simp at hprim
    · cases hl0 : c0.linkedId with
      | none =>
        have huntouched : mergeTransform mergeIds O.id now c0 = c0 :=
          mergeTransform_untouched h1 (fun l hl => by rw [hl0] at hl; cases hl)
        rw [huntouched] at hprim
        exact ⟨huntouched, hprim⟩
      | some l =>
        by_cases h2 : l ∈ mergeIds
        · rw [mergeTransform_of_link h1 hl0 h2] at hprim
          have hc0prim : c0.linkPrecedence = LinkPrecedence.primary := hprim
          have := hinv.prim_no_link c0 hc0 hc0prim
          rw [this] at hl0
          cases hl0
        · have huntouched : mergeTransform mergeIds O.id now c0 = c0 :=
            mergeTransform_untouched h1
              (fun l2 hl2 => by rw [hl0] at hl2; cases hl2; exact h2)
          rw [huntouched] at hprim
          exact ⟨huntouched, hprim⟩
  constructor
  · exact hinv.nextId_pos
  · intro d hd
    rcases List.mem_map.mp hd with ⟨c0, hc0, rfl⟩
    rw [(mergeTransform_fields mergeIds O.id now c0).1]
    exact hinv.ids_pos c0 hc0
  · intro d hd
    rcases List.mem_map.mp hd with ⟨c0, hc0, rfl⟩
    rw [(mergeTransform_fields mergeIds O.id now c0).1]
    exact hinv.ids_lt c0 hc0
  · refine List.pairwise_map.mpr (hinv.ids_sorted.imp ?_)
    intro a b hab
    rw [(mergeTransform_fields mergeIds O.id now a).1,
      (mergeTransform_fields mergeIds O.id now b).1]
    exact hab
  · refine List.pairwise_map.mpr (hinv.created_sorted.imp ?_)
    intro a b hab
    rw [(mergeTransform_fields mergeIds O.id now a).2.1,
      (mergeTransform_fields mergeIds O.id now b).2.1]
    exact hab
  · intro d hd
    rcases List.mem_map.mp hd with ⟨c0, hc0, rfl⟩
    rw [(mergeTransform_fields mergeIds O.id now c0).2.2.2.2]
    exact hinv.no_deleted c0 hc0
  · intro d hd hprim
    rcases List.mem_map.mp hd with ⟨c0, hc0, rfl⟩
    rcases hprim_untouched c0 hc0 hprim with ⟨heq, hc0prim⟩
    rw [heq]
    exact hinv.prim_no_link c0 hc0 hc0prim
  · intro d hd hsec
    rcases List.mem_map.mp hd with ⟨c0, hc0, rfl⟩
    by_cases h1 : c0.id ∈ mergeIds
    · rw [mergeTransform_of_mem h1]
      rfl
    · cases hl0 : c0.linkedId with
      | none =>
        have huntouched : mergeTransform mergeIds O.id now c0 = c0 :=
          mergeTransform_untouched h1 (fun l hl => by rw [hl0] at hl; cases hl)
        rw [huntouched] at hsec ⊢
        exact hinv.sec_has_link c0 hc0 hsec
      | some l =>
        by_cases h2 : l ∈ mergeIds
        · rw [mergeTransform_of_link h1 hl0 h2]
          rfl
        · have huntouched : mergeTransform mergeIds O.id now c0 = c0 :=
            mergeTransform_untouched h1
              (fun l2 hl2 => by rw [hl0] at hl2; cases hl2; exact h2)
          rw [huntouched] at hsec ⊢
          exact hinv.sec_has_link c0 hc0 hsec
  · intro d hd lid hlid
    rcases List.mem_map.mp hd with ⟨c0, hc0, rfl⟩
    by_cases h1 : c0.id ∈ mergeIds
    · rw [mergeTransform_of_mem h1] at hlid ⊢
      have hlidO : O.id = lid := Option.some.inj hlid
      rcases hsub c0.id h1 with ⟨x, hx, hxid, -, hxcr, hxlt⟩
      have hxc0 : x = c0 := eq_of_id_eq_of_pairwise hinv.ids_sorted hx hc0 hxid
      refine ⟨O, hOmem, hlidO, hOprim, ?_, ?_⟩
      · show O.createdAt ≤ c0.createdAt
        rw [← hxc0]
        exact hxcr
      · show O.id < c0.id
        rw [← hxc0]
        exact hxlt
    · cases hl0 : c0.linkedId with
      | none =>
        have huntouched : mergeTransform mergeIds O.id now c0 = c0 :=
          mergeTransform_untouched h1 (fun l hl => by rw [hl0] at hl; cases hl)
        rw [huntouched] at hlid ⊢
        rw [hl0] at hlid
        cases hlid
      | some l =>
        by_cases h2 : l ∈ mergeIds
        · rw [mergeTransform_of_link h1 hl0 h2] at hlid ⊢
          have hlidO : O.id = lid := Option.some.inj hlid
          rcases hsub l h2 with ⟨x, hx, hxid, -, hxcr, hxlt⟩
          rcases hinv.link_resolves c0 hc0 l hl0 with ⟨p, hp, hpid, -, hpcr, hplt⟩
          have hxp : x = p := eq_of_id_eq_of_pairwise hinv.ids_sorted hx hp
            (hxid.trans hpid.symm)
          refine ⟨O, hOmem, hlidO, hOprim, ?_, ?_⟩
          · show O.createdAt ≤ c0.createdAt
            calc O.createdAt ≤ x.createdAt := hxcr
              _ = p.createdAt := by rw [hxp]
              _ ≤ c0.createdAt := hpcr
          · show O.id < c0.id
            calc O.id < x.id := hxlt
              _ = p.id := by rw [hxp]
              _ < c0.id := hplt
        · have huntouched : mergeTransform mergeIds O.id now c0 = c0 :=
            mergeTransform_untouched h1
              (fun l2 hl2 => by rw [hl0] at hl2; cases hl2; exact h2)
          rw [huntouched] at hlid ⊢
          rcases hinv.link_resolves c0 hc0 lid hlid with ⟨p, hp, hpid, hpprim, hpcr, hplt⟩
          have hplink : p.linkedId = none := hinv.prim_no_link p hp hpprim
          have hlidnotin : lid ∉ mergeIds := by
            rw [hl0] at hlid
            rcases Option.some.inj hlid with rfl
            exact h2
          have hmtp : mergeTransform mergeIds O.id now p = p :=
            mergeTransform_untouched (hpid ▸ hlidnotin)
              (fun l2 hl2 => by rw [hplink] at hl2; cases hl2)
          refine ⟨p, ?_, hpid, hpprim, hpcr, hplt⟩
          rw [← hmtp]
          exact List.mem_map_of_mem _ hp
  · intro a ha b hb hne hap hbp
    rcases List.mem_map.mp ha with ⟨c0, hc0, rfl⟩
    rcases List.mem_map.mp hb with ⟨d0, hd0, rfl⟩
    rcases hprim_untouched c0 hc0 hap with ⟨heqc, hc0prim⟩
    rcases hprim_untouched d0 hd0 hbp with ⟨heqd, hd0prim⟩
    rw [heqc, heqd] at hne ⊢
    exact hinv.no_prim_share c0 hc0 d0 hd0 hne hc0prim hd0prim

/-! ### Unfolding the identify pipeline -/

theorem identify_eq_error {req : IdentifyRequest} {now : Nat} {s : ContactStore}
    {e : String}
    (hlook : findContactsByEmailOrPhone req.email req.phoneNumber s = Except.error e) :
    identify req now s = (s, Except.error e) := by
  unfold identify
  rw [hlook]

theorem identify_eq_core {req : IdentifyRequest} {now : Nat} {s : ContactStore}
    {L : List Contact}
    (hlook : findContactsByEmailOrPhone req.email req.phoneNumber s = Except.ok L) :
    identify req now s = identifyCore L req.email req.phoneNumber now s := by
  unfold identify
  rw [hlook]

theorem identifyCore_empty (e ph : Option String) (now : Nat) (s : ContactStore) :
    identifyCore [] e ph now s =
      ((createNewPrimaryContact e ph now s).2,
        Except.ok (createNewPrimaryContact e ph now s).1) := rfl

theorem createNewPrimary_store (e ph : Option String) (now : Nat) (s : ContactStore) :
    (createNewPrimaryContact e ph now s).2 = { contacts := s.contacts ++ [{ id := s.nextId, phoneNumber := ph, email := e, linkedId := none, linkPrecedence := LinkPrecedence.primary, createdAt := now, updatedAt := now, deletedAt := none }], nextId := s.nextId + 1 } := rfl

theorem createSecondary_store (e ph : Option String) {pid : Nat} (hpos : 0 < pid)
    (now : Nat) (s : ContactStore) :
    (createSecondaryContact e ph (some pid) now s).2 = { contacts := s.contacts ++ [{ id := s.nextId, phoneNumber := ph, email := e, linkedId := some pid, linkPrecedence := LinkPrecedence.secondary, createdAt := now, updatedAt := now, deletedAt := none }], nextId := s.nextId + 1 } := by
  have hne : (pid == 0) = false := by
    simpa using Nat.pos_iff_ne_zero.mp hpos
  simp [createSecondaryContact, createContact, hne]

theorem identifyCore_attach {L : List Contact} {P : Contact}
    (hne : L.isEmpty = false) (hfpc : findPrimaryContacts L = [P])
    (e ph : Option String) (now : Nat) (s : ContactStore) :
    identifyCore L e ph now s =
      ((if needsSecondaryContact P e ph then
          (createSecondaryContact e ph (some P.id) now s).2 else s),
        buildResponseForPrimary P.id (if needsSecondaryContact P e ph then
          (createSecondaryContact e ph (some P.id) now s).2 else s)) := by
  unfold identifyCore
  rw [hne, hfpc]
  rfl

theorem identifyCore_nil {L : List Contact}
    (hne : L.isEmpty = false) (hfpc : findPrimaryContacts L = [])
    (e ph : Option String) (now : Nat) (s : ContactStore) :
    identifyCore L e ph now s = (s, Except.error "No primary contact found to merge") := by
  unfold identifyCore
  rw [hne, hfpc]
  rfl

theorem identifyCore_merge {L : List Contact} {P Q : Contact} {QS : List Contact}
    (hne : L.isEmpty = false) (hfpc : findPrimaryContacts L = P :: Q :: QS)
    (e ph : Option String) (now : Nat) (s : ContactStore) :
    identifyCore L e ph now s = mergePrimaryContacts (P :: Q :: QS) e ph now s := by
  unfold identifyCore
  rw [hne, hfpc]
  rfl

theorem mergePrimaryContacts_cons {PL : List Contact} {O : Contact} {xs : List Contact}
    (hsort : sortByCreatedAt PL = O :: xs)
    (e ph : Option String) (now : Nat) (s : ContactStore) :
    mergePrimaryContacts PL e ph now s =
      ((if hasNewInformation (findAllLinkedContacts O.id (mergeFold xs O.id now s)) e ph
          then (createSecondaryContact e ph (some O.id) now (mergeFold xs O.id now s)).2
          else mergeFold xs O.id now s),
        buildResponseForPrimary O.id
          (if hasNewInformation (findAllLinkedContacts O.id (mergeFold xs O.id now s)) e ph
            then (createSecondaryContact e ph (some O.id) now (mergeFold xs O.id now s)).2
            else mergeFold xs O.id now s)) := by
  unfold mergePrimaryContacts
  rw [hsort]

/-! ### Preservation of the store invariant -/

theorem storeInv_identify {s s' : ContactStore} {req : IdentifyRequest} {now : Nat}
    {res : Except String ContactResponse}
    (hinv : StoreInv s) (hclock : MonotoneClock now s)
    (h : identify req now s = (s', res)) : StoreInv s' := by
  cases hlook : findContactsByEmailOrPhone req.email req.phoneNumber s with
  | error e =>
    rw [identify_eq_error hlook] at h
    injection h with hs _
    exact hs ▸ hinv
  | ok L =>
    rw [identify_eq_core hlook] at h
    by_cases hLe : L.isEmpty = true
    · have hL : L = [] := by simpa using hLe
      subst hL
      rw [identifyCore_empty] at h
      injection h with hs _
      rw [createNewPrimary_store] at hs
      refine hs ▸ storeInv_append_primary hinv hclock ?_
      have hchar := lookup_ok_characterize hinv hlook
      intro c hc
      rcases hb : matchesEmailOrPhone req.email req.phoneNumber c with _ | _
      · rfl
      · exfalso
        have hcf : c ∈ ([] : List Contact) := by
          rw [hchar]
          exact List.mem_filter.mpr ⟨hc, by simp [hinv.no_deleted c hc, hb]⟩
        cases hcf
    · have hLe' : L.isEmpty = false := by simpa using hLe
      have hchar := lookup_ok_characterize hinv hlook
      have hfpcfilter : findPrimaryContacts L
          = L.filter (fun c => c.linkPrecedence == LinkPrecedence.primary) := by
        rw [hchar]
        exact matched_findPrimaryContacts hinv _
      have hmemPL : ∀ x ∈ L.filter (fun c => c.linkPrecedence == LinkPrecedence.primary),
          x ∈ s.contacts ∧ x.linkPrecedence = LinkPrecedence.primary := by
        intro x hx
        rcases List.mem_filter.mp hx with ⟨hxL, hxp⟩
        refine ⟨?_, by simpa using hxp⟩
        rw [hchar] at hxL
        exact matched_sub hxL
      rcases hPL : findPrimaryContacts L with _ | ⟨P, PS⟩
      · rw [identifyCore_nil hLe' hPL] at h
        injection h with hs _
        exact hs ▸ hinv
      · cases PS with
        | nil =>
          rw [identifyCore_attach hLe' hPL] at h
          injection h with hs _
          rw [← hs]
          have hflt : L.filter (fun c => c.linkPrecedence == LinkPrecedence.primary)
              = [P] := hfpcfilter.symm.trans hPL
          have hPmem : P ∈ s.contacts ∧ P.linkPrecedence = LinkPrecedence.primary := by
            apply hmemPL
            rw [hflt]
            exact List.mem_singleton.mpr rfl
          by_cases hneed : needsSecondaryContact P req.email req.phoneNumber = true
          · rw [if_pos hneed, createSecondary_store req.email req.phoneNumber
              (hinv.ids_pos P hPmem.1)]
            exact storeInv_append_secondary hinv hclock hPmem.1 hPmem.2 _ _
          · rw [if_neg hneed]
            exact hinv
        | cons Q QS =>
          rw [identifyCore_merge hLe' hPL] at h
          have hflt : L.filter (fun c => c.linkPrecedence == LinkPrecedence.primary)
              = P :: Q :: QS := hfpcfilter.symm.trans hPL
          have hLpair_created : L.Pairwise (fun a b => a.createdAt ≤ b.createdAt) := by
            rw [hchar]
            exact hinv.created_sorted.filter _
          have hLpair_ids : L.Pairwise (fun a b => a.id < b.id) := by
            rw [hchar]
            exact hinv.ids_sorted.filter _
          have hPLpair_created : (P :: Q :: QS).Pairwise
              (fun a b => a.createdAt ≤ b.createdAt) := by
            rw [← hflt]
            exact hLpair_created.filter _
          have hPLpair_ids : (P :: Q :: QS).Pairwise (fun a b => a.id < b.id) := by
            rw [← hflt]
            exact hLpair_ids.filter _
          have hsort : sortByCreatedAt (P :: Q :: QS) = P :: Q :: QS :=
            sortByCreatedAt_eq_self hPLpair_created
          rw [mergePrimaryContacts_cons hsort] at h
          injection h with hs _
          rw [← hs]
          have hmemall : ∀ x ∈ (P :: Q :: QS),
              x ∈ s.contacts ∧ x.linkPrecedence = LinkPrecedence.primary := by
            intro x hx
            apply hmemPL
            rw [hflt]
            exact hx
          obtain ⟨hPmem, hPprim⟩ := hmemall P (List.mem_cons_self _ _)
          have hxsfacts : ∀ x ∈ Q :: QS, x ∈ s.contacts ∧
              x.linkPrecedence = LinkPrecedence.primary ∧
              P.createdAt ≤ x.createdAt ∧ P.id < x.id := by
            intro x hx
            obtain ⟨hm, hp⟩ := hmemall x (List.mem_cons_of_mem _ hx)
            exact ⟨hm, hp, (List.pairwise_cons.mp hPLpair_created).1 x hx,
              (List.pairwise_cons.mp hPLpair_ids).1 x hx⟩
          have h1 : ∀ x ∈ Q :: QS, ∀ c ∈ s.contacts, c.id = x.id → c.linkedId = none := by
            intro x hx c hc hcx
            have hcex : c = x :=
              eq_of_id_eq_of_pairwise hinv.ids_sorted hc (hxsfacts x hx).1 hcx
            rw [hcex]
            exact hinv.prim_no_link x (hxsfacts x hx).1 (hxsfacts x hx).2.1
          have h2 : P.id ∉ (Q :: QS).map (fun c => c.id) := by
            intro hm
            rcases List.mem_map.mp hm with ⟨x, hx, hxid⟩
            exact absurd hxid (Nat.ne_of_gt (hxsfacts x hx).2.2.2)
          have h3 : ((Q :: QS).map (fun c => c.id)).Nodup := by
            have hpp : (Q :: QS).Pairwise (fun a b => a.id < b.id) :=
              (List.pairwise_cons.mp hPLpair_ids).2
            exact List.pairwise_map.mpr (hpp.imp (fun hab => Nat.ne_of_lt hab))
          obtain ⟨hmap, hnext⟩ := mergeFold_eq_map P.id now (Q :: QS) s h1 h2 h3
          have hs1eq : mergeFold (Q :: QS) P.id now s
              = { contacts := s.contacts.map
                    (mergeTransform ((Q :: QS).map (fun c => c.id)) P.id now),
                  nextId := s.nextId } := by
            rw [← hmap, ← hnext]
          have hinv1 : StoreInv (mergeFold (Q :: QS) P.id now s) := by
            rw [hs1eq]
            refine storeInv_mergeTransform hinv hPmem hPprim h2 ?_
            intro i hi
            rcases List.mem_map.mp hi with ⟨x, hx, hxid⟩
            exact ⟨x, (hxsfacts x hx).1, hxid, (hxsfacts x hx).2.1,
              (hxsfacts x hx).2.2.1, hxid ▸ (hxsfacts x hx).2.2.2⟩
          have hclock1 : MonotoneClock now (mergeFold (Q :: QS) P.id now s) := by
            intro c hc
            rw [hs1eq] at hc
            rcases List.mem_map.mp hc with ⟨c0, hc0, rfl⟩
            rw [(mergeTransform_fields _ _ _ c0).2.1]
            exact hclock c0 hc0
          have hPin1 : P ∈ (mergeFold (Q :: QS) P.id now s).contacts := by
            rw [hs1eq]
            have hPlinked : P.linkedId = none := hinv.prim_no_link P hPmem hPprim
            have hmtP : mergeTransform ((Q :: QS).map (fun c => c.id)) P.id now P = P :=
              mergeTransform_untouched h2 (fun l hl => by rw [hPlinked] at hl; cases hl)
            have hmm := List.mem_map_of_mem
              (mergeTransform ((Q :: QS).map (fun c => c.id)) P.id now) hPmem
            rwa [hmtP] at hmm
          by_cases hnew : hasNewInformation (findAllLinkedContacts P.id
              (mergeFold (Q :: QS) P.id now s)) req.email req.phoneNumber = true
          · rw [if_pos hnew, createSecondary_store req.email req.phoneNumber
              (hinv1.ids_pos P hPin1)]
            exact storeInv_append_secondary hinv1 hclock1 hPin1 hPprim _ _
          · rw [if_neg hnew]
            exact hinv1

theorem reachable_storeInv {s : ContactStore} (h : Reachable s) : StoreInv s := by
  induction h with
  | empty => exact storeInv_empty
  | step hr hclock hid ih => exact storeInv_identify ih hclock hid

/-! ### Helpers about lookup results and cluster projections -/

theorem mem_of_lookup_ok {s : ContactStore} {e ph : Option String} {L : List Contact}
    {c : Contact} (hlook : findContactsByEmailOrPhone e ph s = Except.ok L)
    (hc : c ∈ L) :
    c ∈ s.contacts ∧ c.deletedAt = none ∧ matchesEmailOrPhone e ph c = true := by
  unfold findContactsByEmailOrPhone at hlook
  split at hlook
  · cases hlook
  · injection hlook with hL
    rw [← hL] at hc
    rcases List.mem_filter.mp (mem_sortByCreatedAt.mp hc) with ⟨hcs, hcond⟩
    have hcond' : c.deletedAt.isNone = true ∧ matchesEmailOrPhone e ph c = true :=
      (Bool.and_eq_true _ _) ▸ hcond
    exact ⟨hcs, Option.isNone_iff_eq_none.mp hcond'.1, hcond'.2⟩

theorem cluster_find_primary {s : ContactStore} {A : Contact}
    (hinv : StoreInv s) (hA : A ∈ s.contacts)
    (hAprim : A.linkPrecedence = LinkPrecedence.primary) :
    (findAllLinkedContacts A.id s).find?
      (fun c => c.linkPrecedence == LinkPrecedence.primary) = some A := by
  apply find?_eq_some_of_unique
  · rw [findAllLinkedContacts]
    exact mem_sortByCreatedAt.mpr
      (List.mem_filter.mpr ⟨hA, by simp [hinv.no_deleted A hA]⟩)
  · simp [hAprim]
  · intro x hx hxp
    rw [findAllLinkedContacts] at hx
    rcases List.mem_filter.mp (mem_sortByCreatedAt.mp hx) with ⟨hxs, hcond⟩
    have hxprim : x.linkPrecedence = LinkPrecedence.primary := by simpa using hxp
    have hxlink : x.linkedId = none := hinv.prim_no_link x hxs hxprim
    have hxid : x.id = A.id := by
      simp [hxlink] at hcond
      exact hcond.1
    exact eq_of_id_eq_of_pairwise hinv.ids_sorted hxs hA hxid

theorem buildResponse_primary_id {s : ContactStore} {pid : Nat} {A : Contact}
    (hfind : (findAllLinkedContacts pid s).find?
      (fun c => c.linkPrecedence == LinkPrecedence.primary) = some A) :
    ∃ resp, buildResponseForPrimary pid s = Except.ok resp ∧
      resp.primaryContactId = A.id := by
  simp only [buildResponseForPrimary]
  rw [hfind]
  exact ⟨_, rfl, rfl⟩

theorem buildResponse_ok_of_mem_primary {s : ContactStore} {pid : Nat} {x : Contact}
    (hx : x ∈ s.contacts) (hxp : x.linkPrecedence = LinkPrecedence.primary)
    (hxdel : x.deletedAt = none)
    (hxin : (x.id == pid || x.linkedId == some pid) = true) :
    ∃ resp, buildResponseForPrimary pid s = Except.ok resp := by
  have hmem : x ∈ findAllLinkedContacts pid s := by
    rw [findAllLinkedContacts]
    exact mem_sortByCreatedAt.mpr (List.mem_filter.mpr ⟨hx, by simp [hxdel, hxin]⟩)
  have hiss : ((findAllLinkedContacts pid s).find?
      (fun c => c.linkPrecedence == LinkPrecedence.primary)).isSome := by
    rw [List.find?_isSome]
    exact ⟨x, hmem, by simp [hxp]⟩
  rcases Option.isSome_iff_exists.mp hiss with ⟨y, hy⟩
  simp only [buildResponseForPrimary]
  rw [hy]
  exact ⟨_, rfl⟩

theorem isEmpty_false_of_mem {L : List Contact} {c : Contact} (hc : c ∈ L) :
    L.isEmpty = false := by
  cases L with
  | nil => cases hc
  | cons a as => rfl

/-! ### The claims -/

/-- C9: if `identify` is called with both email and phoneNumber absent, the
lookup builds a malformed SQL query and rejects, so the call fails with a
storage error before any write: the store is returned unchanged, and no
contact is created or mutated. -/
theorem claim_C9_missing_both_fields_errors (now : Nat) (s : ContactStore) :
    identify { email := none, phoneNumber := none } now s
      = (s, Except.error "SQLITE_ERROR: malformed query") :=
  identify_eq_error rfl

/-- C1: evaluation of the code at the failing input. After the requests
(a@x.com, p1) and (a@x.com, q1), the store holds primary 1 and its secondary 2;
the request (phoneNumber q1) matches only secondary 2, whose primary (id 1,
alive in the store, asserted below) is not in the matched set, and
`findPrimaryContacts` dereferences `linkedId` only inside the matched set —
so the request errors with "No primary contact found to merge" instead of
proceeding on the attach path, leaving the store unchanged. -/
theorem claim_C1_secondary_only_match_throws :
    identify { email := some "a@x.com", phoneNumber := some "p1" } 1 ContactStore.empty
      = (exC1s1, Except.ok { primaryContactId := 1, emails := ["a@x.com"], phoneNumbers := ["p1"], secondaryContactIds := [] }) ∧
    identify { email := some "a@x.com", phoneNumber := some "q1" } 2 exC1s1
      = (exC1s2, Except.ok { primaryContactId := 1, emails := ["a@x.com"], phoneNumbers := ["p1", "q1"], secondaryContactIds := [2] }) ∧
    (∃ c ∈ exC1s2.contacts, c.linkPrecedence = LinkPrecedence.primary ∧ c.id = 1) ∧
    findContactsByEmailOrPhone none (some "q1") exC1s2 = Except.ok [exC1c2] ∧
    exC1c2.linkedId = some 1 ∧
    identify { email := none, phoneNumber := some "q1" } 3 exC1s2
      = (exC1s2, Except.error "No primary contact found to merge") := by
  refine ⟨rfl, rfl, ⟨exC1c1, ?_, rfl, rfl⟩, rfl, rfl, rfl⟩
  simp [exC1s2]

/-- C6: when the lookup returns no match, `identify` appends exactly one new
primary contact carrying the request's email and phone, with no `linkedId`,
and answers with the projection built directly from the request (no further
storage read: the response is computed from the request fields alone).
Instantiated at the empty store with email a@x.com it yields
primaryContactId 1, emails [a@x.com], no phones, no secondaries (witness). -/
theorem claim_C6_create_path (req : IdentifyRequest) (now : Nat) (s : ContactStore)
    (hlook : findContactsByEmailOrPhone req.email req.phoneNumber s = Except.ok []) :
    identify req now s = ({ contacts := s.contacts ++ [{ id := s.nextId, phoneNumber := req.phoneNumber, email := req.email, linkedId := none, linkPrecedence := LinkPrecedence.primary, createdAt := now, updatedAt := now, deletedAt := none }], nextId := s.nextId + 1 }, Except.ok { primaryContactId := s.nextId, emails := req.email.toList, phoneNumbers := req.phoneNumber.toList, secondaryContactIds := [] }) := by
  rw [identify_eq_core hlook, identifyCore_empty, Prod.mk.injEq]
  refine ⟨createNewPrimary_store _ _ _ _, ?_⟩
  rcases req with ⟨em, ph⟩
  cases em <;> cases ph <;> rfl

/-- C6 witness: the spec's scenario, on the empty store. -/
theorem claim_C6_create_path_witness :
    identify { email := some "a@x.com", phoneNumber := none } 0 ContactStore.empty
      = ({ contacts := [{ id := 1, phoneNumber := none, email := some "a@x.com", linkedId := none, linkPrecedence := LinkPrecedence.primary, createdAt := 0, updatedAt := 0, deletedAt := none }], nextId := 2 }, Except.ok { primaryContactId := 1, emails := ["a@x.com"], phoneNumbers := [], secondaryContactIds := [] }) :=
  claim_C6_create_path { email := some "a@x.com", phoneNumber := none } 0 ContactStore.empty rfl

/-- C3: for every cluster projection built by `buildResponseForPrimary`
(with `P` the primary record the code finds in the cluster): emails[0] and
phoneNumbers[0] equal the primary's own non-empty fields; both lists are
duplicate-free; every entry after the primary's own value is drawn from the
secondaries' values in ascending creation order (a sublist of the
secondaries' field values, the secondaries being sorted by `createdAt`);
and secondaryContactIds lists exactly the non-primary contact ids of the
cluster in ascending `createdAt` order. -/
theorem claim_C3_projection_ordering {s : ContactStore} {pid : Nat} {P : Contact}
    (hP : (findAllLinkedContacts pid s).find?
      (fun c => c.linkPrecedence == LinkPrecedence.primary) = some P) :
    ∃ resp, buildResponseForPrimary pid s = Except.ok resp ∧
      (∀ e, P.email = some e → resp.emails.head? = some e) ∧
      (∀ ph, P.phoneNumber = some ph → resp.phoneNumbers.head? = some ph) ∧
      resp.emails.Nodup ∧ resp.phoneNumbers.Nodup ∧
      (∃ t, resp.emails = P.email.toList ++ t ∧
        t.Sublist (((findAllLinkedContacts pid s).filter
          (fun c => c.linkPrecedence == LinkPrecedence.secondary)).filterMap
            (fun c => c.email))) ∧
      (∃ t, resp.phoneNumbers = P.phoneNumber.toList ++ t ∧
        t.Sublist (((findAllLinkedContacts pid s).filter
          (fun c => c.linkPrecedence == LinkPrecedence.secondary)).filterMap
            (fun c => c.phoneNumber))) ∧
      resp.secondaryContactIds = ((findAllLinkedContacts pid s).filter
        (fun c => c.linkPrecedence == LinkPrecedence.secondary)).map (fun c => c.id) ∧
      ((findAllLinkedContacts pid s).filter
        (fun c => c.linkPrecedence == LinkPrecedence.secondary)).Pairwise
        (fun a b => a.createdAt ≤ b.createdAt) := by
  have hfold : ∀ (f : Contact → Option String) (init : List String), init.Nodup →
      ∃ t, ((findAllLinkedContacts pid s).filter
          (fun c => c.linkPrecedence == LinkPrecedence.secondary)).foldl
            (fun acc c => addUniqueValue acc (f c)) init = init ++ t ∧
        t.Sublist (((findAllLinkedContacts pid s).filter
          (fun c => c.linkPrecedence == LinkPrecedence.secondary)).filterMap f) ∧
        (init ++ t).Nodup := by
    intro f init hinit
    have h1 : ((findAllLinkedContacts pid s).filter
        (fun c => c.linkPrecedence == LinkPrecedence.secondary)).foldl
          (fun acc c => addUniqueValue acc (f c)) init
        = List.foldl addUniqueValue init (((findAllLinkedContacts pid s).filter
            (fun c => c.linkPrecedence == LinkPrecedence.secondary)).map f) :=
      (List.foldl_map f addUniqueValue _ init).symm
    rcases foldl_addUniqueValue_spec (((findAllLinkedContacts pid s).filter
        (fun c => c.linkPrecedence == LinkPrecedence.secondary)).map f) init hinit with
      ⟨t, ht1, ht2, ht3⟩
    refine ⟨t, by rw [h1, ht1], ?_, ht3⟩
    have h2 : (((findAllLinkedContacts pid s).filter
        (fun c => c.linkPrecedence == LinkPrecedence.secondary)).map f).filterMap id
        = ((findAllLinkedContacts pid s).filter
            (fun c => c.linkPrecedence == LinkPrecedence.secondary)).filterMap f := by
      rw [List.filterMap_map]
      rfl
    rwa [h2] at ht2
  have hinit_e : (match P.email with | some e => [e] | none => []) = P.email.toList := by
    cases P.email <;> rfl
  have hinit_p : (match P.phoneNumber with | some p => [p] | none => [])
      = P.phoneNumber.toList := by
    cases P.phoneNumber <;> rfl
  have hnd_e : P.email.toList.Nodup := by cases P.email <;> simp
  have hnd_p : P.phoneNumber.toList.Nodup := by cases P.phoneNumber <;> simp
  rcases hfold (fun c => c.email) P.email.toList hnd_e with ⟨te, hte1, hte2, hte3⟩
  rcases hfold (fun c => c.phoneNumber) P.phoneNumber.toList hnd_p with
    ⟨tp, htp1, htp2, htp3⟩
  have hpair : ((findAllLinkedContacts pid s).filter
      (fun c => c.linkPrecedence == LinkPrecedence.secondary)).Pairwise
        (fun a b => a.createdAt ≤ b.createdAt) := by
    have : (findAllLinkedContacts pid s).Pairwise
        (fun a b => a.createdAt ≤ b.createdAt) := by
      rw [findAllLinkedContacts]
      exact sortByCreatedAt_pairwise _
    exact this.filter _
  have hbuild : buildResponseForPrimary pid s = Except.ok
      { primaryContactId := P.id
        emails := ((findAllLinkedContacts pid s).filter
          (fun c => c.linkPrecedence == LinkPrecedence.secondary)).foldl
            (fun acc c => addUniqueValue acc c.email)
            (match P.email with | some e => [e] | none => [])
        phoneNumbers := ((findAllLinkedContacts pid s).filter
          (fun c => c.linkPrecedence == LinkPrecedence.secondary)).foldl
            (fun acc c => addUniqueValue acc c.phoneNumber)
            (match P.phoneNumber with | some p => [p] | none => [])
        secondaryContactIds := ((findAllLinkedContacts pid s).filter
          (fun c => c.linkPrecedence == LinkPrecedence.secondary)).map
            (fun c => c.id) } := by
    simp only [buildResponseForPrimary]
    rw [hP]
  refine ⟨_, hbuild, ?_, ?_, ?_, ?_, ⟨te, ?_, hte2⟩, ⟨tp, ?_, htp2⟩, rfl, hpair⟩
  · intro e he
    show (((findAllLinkedContacts pid s).filter
      (fun c => c.linkPrecedence == LinkPrecedence.secondary)).foldl
        (fun acc c => addUniqueValue acc c.email)
        (match P.email with | some e => [e] | none => [])).head? = some e
    rw [hinit_e, hte1, he]
    rfl
  · intro ph hph
    show (((findAllLinkedContacts pid s).filter
      (fun c => c.linkPrecedence == LinkPrecedence.secondary)).foldl
        (fun acc c => addUniqueValue acc c.phoneNumber)
        (match P.phoneNumber with | some p => [p] | none => [])).head? = some ph
    rw [hinit_p, htp1, hph]
    rfl
  · show (((findAllLinkedContacts pid s).filter
      (fun c => c.linkPrecedence == LinkPrecedence.secondary)).foldl
        (fun acc c => addUniqueValue acc c.email)
        (match P.email with | some e => [e] | none => [])).Nodup
    rw [hinit_e, hte1]
    exact hte3
  · show (((findAllLinkedContacts pid s).filter
      (fun c => c.linkPrecedence == LinkPrecedence.secondary)).foldl
        (fun acc c => addUniqueValue acc c.phoneNumber)
        (match P.phoneNumber with | some p => [p] | none => [])).Nodup
    rw [hinit_p, htp1]
    exact htp3
  · show ((findAllLinkedContacts pid s).filter
      (fun c => c.linkPrecedence == LinkPrecedence.secondary)).foldl
        (fun acc c => addUniqueValue acc c.email)
        (match P.email with | some e => [e] | none => []) = P.email.toList ++ te
    rw [hinit_e, hte1]
  · show ((findAllLinkedContacts pid s).filter
      (fun c => c.linkPrecedence == LinkPrecedence.secondary)).foldl
        (fun acc c => addUniqueValue acc c.phoneNumber)
        (match P.phoneNumber with | some p => [p] | none => [])
        = P.phoneNumber.toList ++ tp
    rw [hinit_p, htp1]

/-- C3 witness: the projection of the two-contact demo cluster. -/
theorem claim_C3_projection_ordering_witness :
    ∃ resp, buildResponseForPrimary 1 demoStore = Except.ok resp ∧
      (∀ e, demoC1.email = some e → resp.emails.head? = some e) ∧
      (∀ ph, demoC1.phoneNumber = some ph → resp.phoneNumbers.head? = some ph) ∧
      resp.emails.Nodup ∧ resp.phoneNumbers.Nodup ∧
      (∃ t, resp.emails = demoC1.email.toList ++ t ∧
        t.Sublist (((findAllLinkedContacts 1 demoStore).filter
          (fun c => c.linkPrecedence == LinkPrecedence.secondary)).filterMap
            (fun c => c.email))) ∧
      (∃ t, resp.phoneNumbers = demoC1.phoneNumber.toList ++ t ∧
        t.Sublist (((findAllLinkedContacts 1 demoStore).filter
          (fun c => c.linkPrecedence == LinkPrecedence.secondary)).filterMap
            (fun c => c.phoneNumber))) ∧
      resp.secondaryContactIds = ((findAllLinkedContacts 1 demoStore).filter
        (fun c => c.linkPrecedence == LinkPrecedence.secondary)).map (fun c => c.id) ∧
      ((findAllLinkedContacts 1 demoStore).filter
        (fun c => c.linkPrecedence == LinkPrecedence.secondary)).Pairwise
        (fun a b => a.createdAt ≤ b.createdAt) :=
  @claim_C3_projection_ordering demoStore 1 demoC1 rfl

/-- C4: identifying with exactly the (email, phone) pair of an existing
primary contact's own fields (in a well-formed store) creates no contact,
leaves the store unchanged, and answers with that primary's id. -/
theorem claim_C4_idempotent_duplicate {s : ContactStore} {P : Contact} (now : Nat)
    (hinv : StoreInv s) (hP : P ∈ s.contacts)
    (hPprim : P.linkPrecedence = LinkPrecedence.primary)
    (hsome : P.email.isSome = true ∨ P.phoneNumber.isSome = true) :
    ∃ resp, identify { email := P.email, phoneNumber := P.phoneNumber } now s
      = (s, Except.ok resp) ∧ resp.primaryContactId = P.id := by
  have hcond : (P.email.isNone && P.phoneNumber.isNone) = false := by
    rcases hsome with h | h
    · cases hpe : P.email with
      | none => rw [hpe] at h; cases h
      | some e => simp [hpe]
    · cases hpp : P.phoneNumber with
      | none => rw [hpp] at h; cases h
      | some p => simp [hpp]
  have hlook : findContactsByEmailOrPhone P.email P.phoneNumber s
      = Except.ok (s.contacts.filter (fun c => c.deletedAt.isNone &&
          matchesEmailOrPhone P.email P.phoneNumber c)) := by
    unfold findContactsByEmailOrPhone
    rw [hcond]
    rw [if_neg (by simp)]
    rw [sortByCreatedAt_eq_self (hinv.created_sorted.filter _)]
  have hPmatch : matchesEmailOrPhone P.email P.phoneNumber P = true := by
    rcases hsome with h | h
    · rcases Option.isSome_iff_exists.mp h with ⟨e, he⟩
      simp [matchesEmailOrPhone, he]
    · rcases Option.isSome_iff_exists.mp h with ⟨p, hp⟩
      cases hpe : P.email with
      | none => simp [matchesEmailOrPhone, hpe, hp]
      | some e => simp [matchesEmailOrPhone, hpe, hp]
  have hPL : P ∈ s.contacts.filter (fun c => c.deletedAt.isNone &&
      matchesEmailOrPhone P.email P.phoneNumber c) :=
    List.mem_filter.mpr ⟨hP, by simp [hinv.no_deleted P hP, hPmatch]⟩
  have hLe' : (s.contacts.filter (fun c => c.deletedAt.isNone &&
      matchesEmailOrPhone P.email P.phoneNumber c)).isEmpty = false :=
    isEmpty_false_of_mem hPL
  have hpairne : (s.contacts.filter (fun c => c.deletedAt.isNone &&
      matchesEmailOrPhone P.email P.phoneNumber c)).Pairwise
        (fun a b => a.id ≠ b.id) :=
    (hinv.ids_sorted.filter _).imp (fun hab => Nat.ne_of_lt hab)
  have hfilterPL : (s.contacts.filter (fun c => c.deletedAt.isNone &&
      matchesEmailOrPhone P.email P.phoneNumber c)).filter
        (fun c => c.linkPrecedence == LinkPrecedence.primary) = [P] := by
    refine filter_eq_singleton_of_unique hpairne hPL (by simp [hPprim]) ?_
    intro x hx hxp
    have hxprim : x.linkPrecedence = LinkPrecedence.primary := by simpa using hxp
    rcases List.mem_filter.mp hx with ⟨hxs, hxcond⟩
    have hxm : matchesEmailOrPhone P.email P.phoneNumber x = true :=
      ((Bool.and_eq_true _ _) ▸ hxcond).2
    by_cases hxid : x.id = P.id
    · exact eq_of_id_eq_of_pairwise hinv.ids_sorted hxs hP hxid
    · exfalso
      obtain ⟨hish_e, hish_p⟩ := hinv.no_prim_share P hP x hxs
        (fun he => hxid he.symm) hPprim hxprim
      cases hpe : P.email with
      | none =>
        cases hpp : P.phoneNumber with
        | none =>
          rw [hpe, hpp] at hxm
          simp [matchesEmailOrPhone] at hxm
        | some p =>
          rw [hpe, hpp] at hxm
          simp [matchesEmailOrPhone] at hxm
          exact hish_p p hpp (by simpa using hxm)
      | some e =>
        cases hpp : P.phoneNumber with
        | none =>
          rw [hpe, hpp] at hxm
          simp [matchesEmailOrPhone] at hxm
          exact hish_e e hpe (by simpa using hxm)
        | some p =>
          rw [hpe, hpp] at hxm
          simp [matchesEmailOrPhone] at hxm
          rcases hxm with hxm | hxm
          · exact hish_e e hpe (by simpa using hxm)
          · exact hish_p p hpp (by simpa using hxm)
  have hfpc : findPrimaryContacts (s.contacts.filter (fun c => c.deletedAt.isNone &&
      matchesEmailOrPhone P.email P.phoneNumber c)) = [P] := by
    rw [matched_findPrimaryContacts hinv, hfilterPL]
  have hneed : needsSecondaryContact P P.email P.phoneNumber = false := by
    simp [needsSecondaryContact]
  rcases buildResponse_primary_id (cluster_find_primary hinv hP hPprim) with
    ⟨resp, hok, hid⟩
  refine ⟨resp, ?_, hid⟩
  rw [identify_eq_core hlook, identifyCore_attach hLe' hfpc, hneed]
  rw [if_neg (by simp)]
  rw [hok]

/-- C4 witness: repeating the primary's own pair on the demo store changes
nothing and answers with id 1. -/
theorem claim_C4_idempotent_duplicate_witness :
    ∃ resp, identify { email := demoC1.email, phoneNumber := demoC1.phoneNumber } 5
      demoStore = (demoStore, Except.ok resp) ∧ resp.primaryContactId = demoC1.id := by
  have hclock0 : MonotoneClock 1 ContactStore.empty := by
    intro c hc
    simp [ContactStore.empty] at hc
  have hstep1 : Reachable demoStore1 :=
    Reachable.step Reachable.empty hclock0
      (rfl : identify { email := some "a@x.com", phoneNumber := some "111" } 1
        ContactStore.empty = (demoStore1, Except.ok { primaryContactId := 1, emails := ["a@x.com"], phoneNumbers := ["111"], secondaryContactIds := [] }))
  have hclock1 : MonotoneClock 2 demoStore1 := by
    intro c hc
    simp [demoStore1] at hc
    subst hc
    decide
  have hstep2 : Reachable demoStore :=
    Reachable.step hstep1 hclock1
      (rfl : identify { email := some "a@x.com", phoneNumber := some "222" } 2
        demoStore1 = (demoStore, Except.ok { primaryContactId := 1, emails := ["a@x.com"], phoneNumbers := ["111", "222"], secondaryContactIds := [2] }))
  exact claim_C4_idempotent_duplicate 5 (reachable_storeInv hstep2)
    (by simp [demoStore]) rfl (Or.inl rfl)

theorem demoStore_reachable : Reachable demoStore := by
  have hclock0 : MonotoneClock 1 ContactStore.empty := by
    intro c hc
    simp [ContactStore.empty] at hc
  have hstep1 : Reachable demoStore1 :=
    Reachable.step Reachable.empty hclock0
      (rfl : identify { email := some "a@x.com", phoneNumber := some "111" } 1
        ContactStore.empty = (demoStore1, Except.ok { primaryContactId := 1, emails := ["a@x.com"], phoneNumbers := ["111"], secondaryContactIds := [] }))
  have hclock1 : MonotoneClock 2 demoStore1 := by
    intro c hc
    simp [demoStore1] at hc
    subst hc
    decide
  exact Reachable.step hstep1 hclock1
    (rfl : identify { email := some "a@x.com", phoneNumber := some "222" } 2
      demoStore1 = (demoStore, Except.ok { primaryContactId := 1, emails := ["a@x.com"], phoneNumbers := ["111", "222"], secondaryContactIds := [2] }))

/-- C5: after any sequence of successfully completed identify requests from
the empty store (under a nondecreasing wall clock), every SECONDARY
contact's linkedId resolves to a live PRIMARY contact, and no PRIMARY
contact has a linkedId: no orphan secondaries, no secondary-to-secondary
chains, no cycles. -/
theorem claim_C5_no_orphan_no_cycle {s : ContactStore} (h : Reachable s) :
    ∀ c ∈ s.contacts,
      (c.linkPrecedence = LinkPrecedence.secondary →
        ∃ p, p ∈ s.contacts ∧ c.linkedId = some p.id ∧
          p.linkPrecedence = LinkPrecedence.primary) ∧
      (c.linkPrecedence = LinkPrecedence.primary → c.linkedId = none) := by
  have hinv := reachable_storeInv h
  intro c hc
  constructor
  · intro hsec
    have hsome := hinv.sec_has_link c hc hsec
    rcases Option.isSome_iff_exists.mp hsome with ⟨lid, hlid⟩
    rcases hinv.link_resolves c hc lid hlid with ⟨p, hp, hpid, hpprim, -, -⟩
    exact ⟨p, hp, by rw [hlid, hpid], hpprim⟩
  · exact hinv.prim_no_link c hc

/-- C5 witness: the demo store is reachable in two requests; its secondary
resolves to the live primary. -/
theorem claim_C5_no_orphan_no_cycle_witness :
    (demoC2.linkPrecedence = LinkPrecedence.secondary →
      ∃ p, p ∈ demoStore.contacts ∧ demoC2.linkedId = some p.id ∧
        p.linkPrecedence = LinkPrecedence.primary) ∧
    (demoC2.linkPrecedence = LinkPrecedence.primary → demoC2.linkedId = none) :=
  claim_C5_no_orphan_no_cycle demoStore_reachable demoC2 (by simp [demoStore])

/-- C7: in the single-primary attach path the decision compares the request
only against the primary's own fields. First conjunct: with primary
{email a, phone p}, a request {email a, phone q}, q ≠ p, appends exactly one
secondary carrying the full request payload. Second: the request {a, p}
leaves the store unchanged. Third: a request whose values all already occur
on an existing secondary of the cluster (so the merge-path test
`hasNewInformation` reports nothing new) still appends a redundant duplicate
secondary in the attach path. Fourth: `hasNewInformation`, used by the merge
path instead, checks the whole cluster's emails and phones. -/
theorem claim_C7_attach_new_information :
    (∀ (s : ContactStore) (now : Nat) (P : Contact) (L : List Contact) (a p q : String),
      findContactsByEmailOrPhone (some a) (some q) s = Except.ok L →
      findPrimaryContacts L = [P] →
      P.linkPrecedence = LinkPrecedence.primary →
      P.email = some a → P.phoneNumber = some p → q ≠ p → 0 < P.id →
      ∃ resp, identify { email := some a, phoneNumber := some q } now s
        = ({ contacts := s.contacts ++ [{ id := s.nextId, phoneNumber := some q, email := some a, linkedId := some P.id, linkPrecedence := LinkPrecedence.secondary, createdAt := now, updatedAt := now, deletedAt := none }], nextId := s.nextId + 1 }, Except.ok resp)) ∧
    (∀ (s : ContactStore) (now : Nat) (P : Contact) (L : List Contact) (a p : String),
      findContactsByEmailOrPhone (some a) (some p) s = Except.ok L →
      findPrimaryContacts L = [P] →
      P.linkPrecedence = LinkPrecedence.primary →
      P.email = some a → P.phoneNumber = some p →
      ∃ resp, identify { email := some a, phoneNumber := some p } now s
        = (s, Except.ok resp)) ∧
    (identify { email := some "a", phoneNumber := some "q" } 3 exC7store
        = (exC7after, Except.ok { primaryContactId := 1, emails := ["a"], phoneNumbers := ["p", "q"], secondaryContactIds := [2, 3] }) ∧
      hasNewInformation (findAllLinkedContacts 1 exC7store) (some "a") (some "q")
        = false) ∧
    (∀ (cts : List Contact) (a q : String),
      hasNewInformation cts (some a) (some q)
        = (!(cts.filterMap (fun c => c.email)).contains a ||
            !(cts.filterMap (fun c => c.phoneNumber)).contains q)) := by
  refine ⟨?_, ?_, ⟨rfl, rfl⟩, ?_⟩
  · intro s now P L a p q hlook hfpc hPprim hPe hPp hq hpos
    have hPL : P ∈ L := mem_of_mem_findPrimaryContacts
      (by rw [hfpc]; exact List.mem_singleton.mpr rfl)
    obtain ⟨hPs, hPdel, -⟩ := mem_of_lookup_ok hlook hPL
    have hLe' : L.isEmpty = false := isEmpty_false_of_mem hPL
    have hneed : needsSecondaryContact P (some a) (some q) = true := by
      simp [needsSecondaryContact, hPe, hPp, Ne.symm hq]
    have hS := createSecondary_store (some a) (some q) hpos now s
    obtain ⟨resp, hr⟩ := @buildResponse_ok_of_mem_primary
      { contacts := s.contacts ++ [{ id := s.nextId, phoneNumber := some q, email := some a, linkedId := some P.id, linkPrecedence := LinkPrecedence.secondary, createdAt := now, updatedAt := now, deletedAt := none }], nextId := s.nextId + 1 }
      P.id P (List.mem_append_left _ hPs) hPprim hPdel (by simp)
    refine ⟨resp, ?_⟩
    rw [identify_eq_core hlook, identifyCore_attach hLe' hfpc, hneed]
    rw [if_pos rfl, hS, hr]
  · intro s now P L a p hlook hfpc hPprim hPe hPp
    have hPL : P ∈ L := mem_of_mem_findPrimaryContacts
      (by rw [hfpc]; exact List.mem_singleton.mpr rfl)
    obtain ⟨hPs, hPdel, -⟩ := mem_of_lookup_ok hlook hPL
    have hLe' : L.isEmpty = false := isEmpty_false_of_mem hPL
    have hneed : needsSecondaryContact P (some a) (some p) = false := by
      simp [needsSecondaryContact, hPe, hPp]
    obtain ⟨resp, hr⟩ := @buildResponse_ok_of_mem_primary
      s P.id P hPs hPprim hPdel (by simp)
    refine ⟨resp, ?_⟩
    rw [identify_eq_core hlook, identifyCore_attach hLe' hfpc, hneed]
    rw [if_neg (by simp), hr]
  · intro cts a q
    rfl

/-- C7 witness: on the single-primary store with own pair (a, p), the
request (a, q) appends one secondary and (a, p) appends none. -/
theorem claim_C7_attach_new_information_witness :
    (∃ resp, identify { email := some "a", phoneNumber := some "q" } 2 demoC7P
      = ({ contacts := demoC7P.contacts ++ [{ id := demoC7P.nextId, phoneNumber := some "q", email := some "a", linkedId := some exC7c1.id, linkPrecedence := LinkPrecedence.secondary, createdAt := 2, updatedAt := 2, deletedAt := none }], nextId := demoC7P.nextId + 1 }, Except.ok resp)) ∧
    (∃ resp, identify { email := some "a", phoneNumber := some "p" } 2 demoC7P
      = (demoC7P, Except.ok resp)) := by
  constructor
  · exact claim_C7_attach_new_information.1 demoC7P 2 exC7c1 [exC7c1] "a" "p" "q"
      rfl rfl rfl rfl rfl (by decide) (by decide)
  · exact claim_C7_attach_new_information.2.1 demoC7P 2 exC7c1 [exC7c1] "a" "p"
      rfl rfl rfl rfl rfl

/-- C8: no successful identify request changes the identity, email, phone,
creation time or delete marker of an existing contact: the final store's
row list is a core-preserving image of the old rows followed by the newly
inserted ones; reconciliation only inserts rows and rewrites
linkPrecedence/linkedId (and updatedAt). -/
theorem claim_C8_frame_no_field_rewrite {req : IdentifyRequest} {now : Nat}
    {s s' : ContactStore} {resp : ContactResponse}
    (h : identify req now s = (s', Except.ok resp)) :
    ∃ pre tail, s'.contacts = pre ++ tail ∧
      List.Forall₂ (fun a b => contactCore a = contactCore b) s.contacts pre := by
  cases hlook : findContactsByEmailOrPhone req.email req.phoneNumber s with
  | error e =>
    rw [identify_eq_error hlook] at h
    injection h with _ hres
    cases hres
  | ok L =>
    rw [identify_eq_core hlook] at h
    by_cases hLe : L.isEmpty = true
    · have hL : L = [] := by simpa using hLe
      subst hL
      rw [identifyCore_empty] at h
      injection h with hs _
      rw [createNewPrimary_store] at hs
      refine ⟨s.contacts, [{ id := s.nextId, phoneNumber := req.phoneNumber, email := req.email, linkedId := none, linkPrecedence := LinkPrecedence.primary, createdAt := now, updatedAt := now, deletedAt := none }], ?_, List.forall₂_same.mpr (fun x _ => rfl)⟩
      rw [← hs]
    · have hLe' : L.isEmpty = false := by simpa using hLe
      rcases hPL : findPrimaryContacts L with _ | ⟨P, PS⟩
      · rw [identifyCore_nil hLe' hPL] at h
        injection h with _ hres
        cases hres
      · cases PS with
        | nil =>
          rw [identifyCore_attach hLe' hPL] at h
          injection h with hs _
          by_cases hneed : needsSecondaryContact P req.email req.phoneNumber = true
          · rw [if_pos hneed] at hs
            refine ⟨s.contacts,
              [(createSecondaryContact req.email req.phoneNumber (some P.id) now s).1],
              ?_, List.forall₂_same.mpr (fun x _ => rfl)⟩
            rw [← hs]
            rfl
          · rw [if_neg hneed] at hs
            refine ⟨s.contacts, [], ?_, List.forall₂_same.mpr (fun x _ => rfl)⟩
            rw [← hs, List.append_nil]
        | cons Q QS =>
          rw [identifyCore_merge hLe' hPL] at h
          rcases hsort : sortByCreatedAt (P :: Q :: QS) with _ | ⟨O, xs⟩
          · exfalso
            have hperm := sortByCreatedAt_perm (P :: Q :: QS)
            rw [hsort] at hperm
            exact List.cons_ne_nil P (Q :: QS) hperm.symm.eq_nil
          · rw [mergePrimaryContacts_cons hsort] at h
            injection h with hs _
            obtain ⟨g, hg, hcore, -⟩ := mergeFold_frame O.id now xs s
            have hfa : List.Forall₂ (fun a b => contactCore a = contactCore b)
                s.contacts (s.contacts.map g) :=
              List.forall₂_map_right_iff.mpr
                (List.forall₂_same.mpr (fun x _ => (hcore x).symm))
            by_cases hnew : hasNewInformation
                (findAllLinkedContacts O.id (mergeFold xs O.id now s))
                req.email req.phoneNumber = true
            · rw [if_pos hnew] at hs
              refine ⟨s.contacts.map g,
                [(createSecondaryContact req.email req.phoneNumber (some O.id) now
                  (mergeFold xs O.id now s)).1], ?_, hfa⟩
              rw [← hs]
              show (mergeFold xs O.id now s).contacts ++ _ = _
              rw [hg]
              rfl
            · rw [if_neg hnew] at hs
              refine ⟨s.contacts.map g, [], ?_, hfa⟩
              rw [← hs, List.append_nil, hg]

/-- C8 witness: a concrete attach request preserves the stored row cores. -/
theorem claim_C8_frame_no_field_rewrite_witness :
    ∃ pre tail, demoStore.contacts = pre ++ tail ∧
      List.Forall₂ (fun a b => contactCore a = contactCore b) demoStore1.contacts pre :=
  claim_C8_frame_no_field_rewrite
    (rfl : identify { email := some "a@x.com", phoneNumber := some "222" } 2
      demoStore1 = (demoStore, Except.ok { primaryContactId := 1, emails := ["a@x.com"], phoneNumbers := ["111", "222"], secondaryContactIds := [2] }))

/-- C10: the merge promotion sorts only by createdAt with a stable sort, so
the promoted contact is the first element of the storage-supplied list that
attains the minimal createdAt (first conjunct, about the sort used by
`mergePrimaryContacts`); there is no tie-break by smaller id: merging two
primaries with equal createdAt supplied in the order [B, A] promotes B,
whose id (2) is larger than A's (1) (second conjunct). -/
theorem claim_C10_merge_tie_break :
    (∀ (l : List Contact) (o : Contact) (rest : List Contact),
      sortByCreatedAt l = o :: rest →
      (∃ pre post, l = pre ++ o :: post ∧ ∀ d ∈ pre, o.createdAt < d.createdAt) ∧
        ∀ d ∈ l, o.createdAt ≤ d.createdAt) ∧
    (mergePrimaryContacts [exC10B, exC10A] none none 20 exC10store
        = (exC10merged, Except.ok { primaryContactId := 2, emails := ["b1", "a1"], phoneNumbers := ["p2", "p1"], secondaryContactIds := [1] }) ∧
      exC10A.createdAt = exC10B.createdAt ∧ exC10A.id < exC10B.id ∧
      exC10A ∈ exC10store.contacts ∧ exC10B ∈ exC10store.contacts) := by
  refine ⟨fun l o rest h => sortByCreatedAt_head_min h, rfl, rfl, by decide, ?_, ?_⟩
  · simp [exC10store]
  · simp [exC10store]

/-- C10 witness: the first-minimum characterisation at the tied pair. -/
theorem claim_C10_merge_tie_break_witness :
    (∃ pre post, [exC10B, exC10A] = pre ++ exC10B :: post ∧
      ∀ d ∈ pre, exC10B.createdAt < d.createdAt) ∧
    ∀ d ∈ [exC10B, exC10A], exC10B.createdAt ≤ d.createdAt :=
  claim_C10_merge_tie_break.1 [exC10B, exC10A] exC10B [exC10A] rfl

/-- C2 counterexample: after requests (a1,p1), (a1,q1), (b1,r1) the store
holds primary 1 (older, with secondary 2 carrying phone q1) and primary 3
(newer).  The request (b1, q1) matches contact 2 (cluster of primary 1) and
contact 3 (primary of the other cluster) — it matches both clusters — yet
the engine answers with primaryContactId = 3, leaves contact 3 primary with
no linkedId, and attaches a fresh secondary under 3 instead of merging under
the older primary 1.  This falsifies the claim as stated. -/
theorem claim_C2_counterexample :
    identify { email := some "a1", phoneNumber := some "p1" } 1 ContactStore.empty
      = (exC2s1, Except.ok { primaryContactId := 1, emails := ["a1"], phoneNumbers := ["p1"], secondaryContactIds := [] }) ∧
    identify { email := some "a1", phoneNumber := some "q1" } 2 exC2s1
      = (exC2s2, Except.ok { primaryContactId := 1, emails := ["a1"], phoneNumbers := ["p1", "q1"], secondaryContactIds := [2] }) ∧
    identify { email := some "b1", phoneNumber := some "r1" } 3 exC2s2
      = (exC2s3, Except.ok { primaryContactId := 3, emails := ["b1"], phoneNumbers := ["r1"], secondaryContactIds := [] }) ∧
    findContactsByEmailOrPhone (some "b1") (some "q1") exC2s3
      = Except.ok [exC2c2, exC2c3] ∧
    exC2c2.linkedId = some exC2c1.id ∧
    exC2c1 ∈ exC2s3.contacts ∧
    exC2c1.linkPrecedence = LinkPrecedence.primary ∧
    exC2c3.linkPrecedence = LinkPrecedence.primary ∧
    exC2c1.createdAt < exC2c3.createdAt ∧
    identify { email := some "b1", phoneNumber := some "q1" } 4 exC2s3
      = (exC2s4, Except.ok { primaryContactId := 3, emails := ["b1"], phoneNumbers := ["r1", "q1"], secondaryContactIds := [4] }) ∧
    exC2c3.id ≠ exC2c1.id ∧
    (∀ c ∈ exC2s4.contacts, c.id = exC2c3.id →
      c.linkPrecedence = LinkPrecedence.primary ∧ c.linkedId = none) := by
  refine ⟨rfl, rfl, rfl, rfl, rfl, ?_, rfl, rfl, by decide, rfl, by decide, by decide⟩
  simp [exC2s3]

/-- C2 amended: for two primary contacts A (older createdAt) and B (newer)
in a well-formed store, every request whose matched set resolves — within
the matched set, as the code dereferences — to exactly the two primaries A
and B returns primaryContactId = A.id, converts B to a secondary with
linkedId = A.id and linkPrecedence = SECONDARY, and repoints every contact
previously secondary to B so that its linkedId = A.id.  (The original claim
ranged over every request that matches both clusters; the counterexample
shows a request that reaches A's cluster only through one of A's
secondaries, which the engine answers on the attach path under B.) -/
theorem claim_C2_oldest_wins_merge {s : ContactStore} {req : IdentifyRequest}
    {now : Nat} {L : List Contact} {A B : Contact}
    (hinv : StoreInv s) (hclock : MonotoneClock now s)
    (hlook : findContactsByEmailOrPhone req.email req.phoneNumber s = Except.ok L)
    (hfpc : findPrimaryContacts L = [A, B])
    (hAB : A.createdAt < B.createdAt) :
    ∃ s' resp, identify req now s = (s', Except.ok resp) ∧
      resp.primaryContactId = A.id ∧
      (∀ c ∈ s'.contacts, c.id = B.id →
        c.linkPrecedence = LinkPrecedence.secondary ∧ c.linkedId = some A.id) ∧
      (∀ c ∈ s.contacts, c.linkedId = some B.id →
        ∀ c', c' ∈ s'.contacts → c'.id = c.id → c'.linkedId = some A.id) := by
  have hLe' : L.isEmpty = false := by
    cases L with
    | nil =>
      rw [show findPrimaryContacts ([] : List Contact) = [] from rfl] at hfpc
      cases hfpc
    | cons a as => rfl
  have hchar := lookup_ok_characterize hinv hlook
  have hfpcfilter : findPrimaryContacts L
      = L.filter (fun c => c.linkPrecedence == LinkPrecedence.primary) := by
    rw [hchar]
    exact matched_findPrimaryContacts hinv _
  have hflt : L.filter (fun c => c.linkPrecedence == LinkPrecedence.primary)
      = [A, B] := hfpcfilter.symm.trans hfpc
  have hmemPL : ∀ x ∈ L.filter (fun c => c.linkPrecedence == LinkPrecedence.primary),
      x ∈ s.contacts ∧ x.linkPrecedence = LinkPrecedence.primary := by
    intro x hx
    rcases List.mem_filter.mp hx with ⟨hxL, hxp⟩
    refine ⟨?_, by simpa using hxp⟩
    rw [hchar] at hxL
    exact matched_sub hxL
  obtain ⟨hAmem, hAprim⟩ := hmemPL A (by rw [hflt]; exact List.mem_cons_self _ _)
  obtain ⟨hBmem, hBprim⟩ := hmemPL B
    (by rw [hflt]; exact List.mem_cons_of_mem _ (List.mem_singleton.mpr rfl))
  have hLpair_ids : L.Pairwise (fun a b => a.id < b.id) := by
    rw [hchar]
    exact hinv.ids_sorted.filter _
  have hLpair_created : L.Pairwise (fun a b => a.createdAt ≤ b.createdAt) := by
    rw [hchar]
    exact hinv.created_sorted.filter _
  have hABpair : ([A, B] : List Contact).Pairwise (fun a b => a.id < b.id) := by
    rw [← hflt]
    exact hLpair_ids.filter _
  have hABid : A.id < B.id :=
    (List.pairwise_cons.mp hABpair).1 B (List.mem_singleton.mpr rfl)
  have hABcr : ([A, B] : List Contact).Pairwise
      (fun a b => a.createdAt ≤ b.createdAt) := by
    rw [← hflt]
    exact hLpair_created.filter _
  have hsort : sortByCreatedAt [A, B] = [A, B] := sortByCreatedAt_eq_self hABcr
  have hidentify : identify req now s =
      ((if hasNewInformation (findAllLinkedContacts A.id (mergeFold [B] A.id now s))
          req.email req.phoneNumber
        then (createSecondaryContact req.email req.phoneNumber (some A.id) now
          (mergeFold [B] A.id now s)).2
        else mergeFold [B] A.id now s),
        buildResponseForPrimary A.id
          (if hasNewInformation (findAllLinkedContacts A.id (mergeFold [B] A.id now s))
              req.email req.phoneNumber
            then (createSecondaryContact req.email req.phoneNumber (some A.id) now
              (mergeFold [B] A.id now s)).2
            else mergeFold [B] A.id now s)) := by
    rw [identify_eq_core hlook, identifyCore_merge hLe' hfpc,
      mergePrimaryContacts_cons hsort]
  have h1 : ∀ x ∈ [B], ∀ c ∈ s.contacts, c.id = x.id → c.linkedId = none := by
    intro x hx c hc hcx
    rcases List.mem_singleton.mp hx with rfl
    have hcB : c = x := eq_of_id_eq_of_pairwise hinv.ids_sorted hc hBmem hcx
    rw [hcB]
    exact hinv.prim_no_link x hBmem hBprim
  have h2 : A.id ∉ ([B].map (fun c => c.id)) := by
    simp
    exact Nat.ne_of_lt hABid
  have h3 : ([B].map (fun c => c.id)).Nodup := by simp
  obtain ⟨hmap, hnext⟩ := mergeFold_eq_map A.id now [B] s h1 h2 h3
  have hs1eq : mergeFold [B] A.id now s
      = { contacts := s.contacts.map (mergeTransform ([B].map (fun c => c.id)) A.id now),
          nextId := s.nextId } := by
    rw [← hmap, ← hnext]
  have hinv1 : StoreInv (mergeFold [B] A.id now s) := by
    rw [hs1eq]
    refine storeInv_mergeTransform hinv hAmem hAprim h2 ?_
    intro i hi
    simp at hi
    subst hi
    exact ⟨B, hBmem, rfl, hBprim, Nat.le_of_lt hAB, hABid⟩
  have hclock1 : MonotoneClock now (mergeFold [B] A.id now s) := by
    intro c hc
    rw [hs1eq] at hc
    rcases List.mem_map.mp hc with ⟨c0, hc0, rfl⟩
    rw [(mergeTransform_fields _ _ _ c0).2.1]
    exact hclock c0 hc0
  have hAlink : A.linkedId = none := hinv.prim_no_link A hAmem hAprim
  have hmtA : mergeTransform ([B].map (fun c => c.id)) A.id now A = A :=
    mergeTransform_untouched h2 (fun l hl => by rw [hAlink] at hl; cases hl)
  have hAin1 : A ∈ (mergeFold [B] A.id now s).contacts := by
    rw [hs1eq]
    have hmm := List.mem_map_of_mem (mergeTransform ([B].map (fun c => c.id)) A.id now)
      hAmem
    rwa [hmtA] at hmm
  have hconv : ∀ c, c ∈ (mergeFold [B] A.id now s).contacts → c.id = B.id →
      c.linkPrecedence = LinkPrecedence.secondary ∧ c.linkedId = some A.id := by
    intro c hc hcid
    rw [hs1eq] at hc
    rcases List.mem_map.mp hc with ⟨c0, hc0, rfl⟩
    have hc0id : c0.id = B.id := by
      rw [← (mergeTransform_fields ([B].map (fun c => c.id)) A.id now c0).1]
      exact hcid
    have hc0B : c0 = B := eq_of_id_eq_of_pairwise hinv.ids_sorted hc0 hBmem hc0id
    subst hc0B
    rw [mergeTransform_of_mem (by simp)]
    exact ⟨rfl, rfl⟩
  have hrepoint : ∀ c ∈ s.contacts, c.linkedId = some B.id →
      ∀ c', c' ∈ (mergeFold [B] A.id now s).contacts → c'.id = c.id →
        c'.linkedId = some A.id := by
    intro c hc hclink c' hc' hc'id
    have hcidne : c.id ≠ B.id := by
      intro he
      have hcB : c = B := eq_of_id_eq_of_pairwise hinv.ids_sorted hc hBmem he
      rw [hcB, hinv.prim_no_link B hBmem hBprim] at hclink
      cases hclink
    rw [hs1eq] at hc'
    rcases List.mem_map.mp hc' with ⟨c0, hc0, rfl⟩
    have hc0id : c0.id = c.id := by
      rw [← (mergeTransform_fields ([B].map (fun c => c.id)) A.id now c0).1]
      exact hc'id
    have hc0c : c0 = c := eq_of_id_eq_of_pairwise hinv.ids_sorted hc0 hc hc0id
    subst hc0c
    rw [mergeTransform_of_link (by simp [hcidne]) hclink (by simp)]
  by_cases hnew : hasNewInformation
      (findAllLinkedContacts A.id (mergeFold [B] A.id now s))
      req.email req.phoneNumber = true
  · have hS := createSecondary_store req.email req.phoneNumber
      (hinv1.ids_pos A hAin1) now (mergeFold [B] A.id now s)
    have hinv2 : StoreInv (createSecondaryContact req.email req.phoneNumber
        (some A.id) now (mergeFold [B] A.id now s)).2 := by
      rw [hS]
      exact storeInv_append_secondary hinv1 hclock1 hAin1 hAprim _ _
    have hAin2 : A ∈ (createSecondaryContact req.email req.phoneNumber
        (some A.id) now (mergeFold [B] A.id now s)).2.contacts := by
      rw [hS]
      exact List.mem_append_left _ hAin1
    obtain ⟨resp, hok, hid⟩ := buildResponse_primary_id
      (cluster_find_primary hinv2 hAin2 hAprim)
    refine ⟨(createSecondaryContact req.email req.phoneNumber (some A.id) now
      (mergeFold [B] A.id now s)).2, resp, ?_, hid, ?_, ?_⟩
    · rw [hidentify, if_pos hnew, hok]
    · intro c hc hcid
      rw [hS] at hc
      rcases List.mem_append.mp hc with hc | hc
      · exact hconv c hc hcid
      · rcases List.mem_singleton.mp hc with rfl
        exfalso
        have hBlt : B.id < s.nextId := hinv.ids_lt B hBmem
        have h' : s.nextId = B.id := by
          rw [← hnext]
          exact hcid
        exact absurd h'.symm (Nat.ne_of_lt hBlt)
    · intro c hc hclink c' hc' hc'id
      rw [hS] at hc'
      rcases List.mem_append.mp hc' with hc' | hc'
      · exact hrepoint c hc hclink c' hc' hc'id
      · rcases List.mem_singleton.mp hc' with rfl
        exfalso
        have hclt : c.id < s.nextId := hinv.ids_lt c hc
        have h' : s.nextId = c.id := by
          rw [← hnext]
          exact hc'id
        exact absurd h'.symm (Nat.ne_of_lt hclt)
  · obtain ⟨resp, hok, hid⟩ := buildResponse_primary_id
      (cluster_find_primary hinv1 hAin1 hAprim)
    refine ⟨mergeFold [B] A.id now s, resp, ?_, hid, ?_, ?_⟩
    · rw [hidentify, if_neg hnew, hok]
    · intro c hc hcid
      exact hconv c hc hcid
    · intro c hc hclink c' hc' hc'id
      exact hrepoint c hc hclink c' hc' hc'id

/-- Witness for the amended C2 theorem: on the three-contact store exC2s3
(primary 1 older, primary 3 newer), the request (a1, r1) matches both
primaries directly; the merge promotes contact 1 and demotes contact 3. -/
theorem claim_C2_oldest_wins_merge_witness :
    StoreInv exC2s3 ∧
    (∃ s' resp,
      identify { email := some "a1", phoneNumber := some "r1" } 5 exC2s3
        = (s', Except.ok resp) ∧
      resp.primaryContactId = exC2c1.id ∧
      (∀ c ∈ s'.contacts, c.id = exC2c3.id →
        c.linkPrecedence = LinkPrecedence.secondary ∧ c.linkedId = some exC2c1.id) ∧
      (∀ c ∈ exC2s3.contacts, c.linkedId = some exC2c3.id →
        ∀ c', c' ∈ s'.contacts → c'.id = c.id →
          c'.linkedId = some exC2c1.id)) := by
  have hinv : StoreInv exC2s3 := by constructor <;> decide
  have hclock : MonotoneClock 5 exC2s3 := by
    intro c hc
    fin_cases hc <;> decide
  have hlook : findContactsByEmailOrPhone (some "a1") (some "r1") exC2s3
      = Except.ok [exC2c1, exC2c2, exC2c3] := by rfl
  have hfpc : findPrimaryContacts [exC2c1, exC2c2, exC2c3]
      = [exC2c1, exC2c3] := by rfl
  exact ⟨hinv, claim_C2_oldest_wins_merge hinv hclock hlook hfpc (by decide)⟩
